import Mathlib

/-!
Verification of the MCP-Server-Custom-Baserow repository.

This file shallowly embeds the core request-processing pipeline of the
repository: the table allow-list gate (src/security/allowList.ts), the
table-operations service (baserow/tables.ts), the response shaper and the
composite workflow handlers of the MCP handler (mcp/handler.ts), and the
Cloudflare-Worker reimplementation of process_bpr (worker.ts).

Remote Baserow state is modelled as explicit store structures; every
operation returns, next to its result, the ordered list of outbound calls
it issued, so that claims about "no outbound call" or "exactly one update
call" can be stated as facts about the call trace.  Numeric record fields
are modelled over Int / Rat; JavaScript truthiness, Map semantics,
parseInt and parseFloat are embedded explicitly below.
-/

namespace MCPBaserow

/-! ## JavaScript-semantics helpers -/

/-- JS `String.prototype.toLowerCase`, character by character. -/
def jsToLower (s : String) : String :=
  ⟨s.data.map Char.toLower⟩

/-- Whether `pat` occurs as a contiguous sublist of `s`. -/
def listContainsSub (pat : List Char) : List Char → Bool
  | [] => pat.isEmpty
  | c :: rest => pat.isPrefixOf (c :: rest) || listContainsSub pat rest

/-- JS `a.includes(b)`: `b` occurs as a contiguous substring of `a`. -/
def jsIncludes (a b : String) : Bool :=
  listContainsSub b.data a.data

/-- JS string truthiness applied to an optional string: `undefined` and the
empty string are falsy, every other string is truthy. -/
def optStrTruthy : Option String → Bool
  | none => false
  | some s => s ≠ ""

/-- JS `s || d` for strings: `s` when truthy, otherwise the default `d`. -/
def jsOrStr (s : Option String) (d : String) : String :=
  match s with
  | none => d
  | some v => if v = "" then d else v

/-- Numeric value of a list of decimal digit characters. -/
def digitsVal (ds : List Char) : Nat :=
  ds.foldl (fun a c => a * 10 + (c.toNat - '0'.toNat)) 0

/-- Leading sign of a JS numeric literal; returns the sign and the rest. -/
def readSign : List Char → Int × List Char
  | '-' :: rest => (-1, rest)
  | '+' :: rest => (1, rest)
  | cs => (1, cs)

/-- JS `parseInt(s, 10)`: skip leading whitespace, optional sign, then the
longest prefix of decimal digits; `none` models `NaN` (no digits). -/
def jsParseInt (s : String) : Option Int :=
  let cs := s.data.dropWhile (·.isWhitespace)
  let sr := readSign cs
  let ds := sr.2.takeWhile (·.isDigit)
  if ds = [] then none else some (sr.1 * (digitsVal ds : Int))

/-- JS `parseFloat(s)`: longest numeric prefix with optional fraction and
exponent; `none` models `NaN`.  The value is kept exact as a rational. -/
def jsParseFloat (s : String) : Option ℚ :=
  let ws := s.data.dropWhile (·.isWhitespace)
  let sr := readSign ws
  let ip := sr.2.takeWhile (·.isDigit)
  let afterInt := sr.2.dropWhile (·.isDigit)
  let fpRest : List Char × List Char :=
    match afterInt with
    | '.' :: rest => (rest.takeWhile (·.isDigit), rest.dropWhile (·.isDigit))
    | _ => ([], afterInt)
  let fp := fpRest.1
  if ip = [] ∧ fp = [] then none
  else
    let mantissa : ℚ := (sr.1 : ℚ) * ((digitsVal ip : ℚ) + (digitsVal fp : ℚ) / 10 ^ fp.length)
    match fpRest.2 with
    | c :: rest =>
      if c = 'e' ∨ c = 'E' then
        let er := readSign rest
        let eds := er.2.takeWhile (·.isDigit)
        if eds = [] then some mantissa
        else some (mantissa * 10 ^ (er.1 * (digitsVal eds : Int)))
      else some mantissa
    | [] => some mantissa

/-- JS `Map.prototype.set`: replace the value in place when the key is
already present, otherwise append at the end (insertion order). -/
def jsMapSet {κ β : Type} [BEq κ] (m : List (κ × β)) (k : κ) (v : β) : List (κ × β) :=
  match m with
  | [] => [(k, v)]
  | (k₀, v₀) :: rest =>
    if k₀ == k then (k₀, v) :: rest else (k₀, v₀) :: jsMapSet rest k v

/-- JS `Array.prototype.join(", ")` over numbers. -/
def joinComma : List Int → String
  | [] => ""
  | [x] => toString x
  | x :: rest => toString x ++ ", " ++ joinComma rest

/-! ## Record field values

`Value` models the JSON values held in Baserow records on the read side
(used by the response shaper); link references appear as objects with
`id`/`value` keys inside arrays.  Numeric fields are modelled as integers:
nothing the shaper does depends on the numeric type. -/

inductive Value where
  | null
  | bool (b : Bool)
  | num (n : Int)
  | str (s : String)
  | arr (xs : List Value)
  | obj (kvs : List (String × Value))

/-- Whether a value is a JS array (`Array.isArray`). -/
def Value.isArr : Value → Bool
  | .arr _ => true
  | _ => false

/-- Values written in create/update payloads (`RecordData` in the source):
numbers, strings, booleans, or arrays of linked-record ids. -/
inductive FieldVal where
  | num (q : ℚ)
  | str (s : String)
  | bool (b : Bool)
  | links (ids : List Int)
deriving DecidableEq

/-- One `{id, value}` entry of a link-reference field. -/
structure LinkRef where
  id : Int
  value : String
deriving DecidableEq

/-! ## Allow-list gate (src/security/allowList.ts, src/types/mcp.ts) -/

/-- The static enumeration `ALLOWED_TABLE_NAMES` from types/mcp.ts. -/
def ALLOWED_TABLE_NAMES : List String :=
  ["manufacturing_orders", "mo_parts_usage", "raw_material_lots",
   "inventory_transactions", "finished_goods", "cycle_counts",
   "fg_parts_mapping", "label_inventory", "parts"]

structure TableConfig where
  name : String
  envKey : String
  description : String
deriving DecidableEq

/-- `TABLE_CONFIGS` from allowList.ts: one env key per known table. -/
def TABLE_CONFIGS : List TableConfig :=
  [⟨"manufacturing_orders", "TABLE_ID_MANUFACTURING_ORDERS",
    "Manufacturing Orders (MO) for tracking production lifecycle"⟩,
   ⟨"mo_parts_usage", "TABLE_ID_MO_PARTS_USAGE",
    "Parts consumption records for manufacturing orders"⟩,
   ⟨"raw_material_lots", "TABLE_ID_RAW_MATERIAL_LOTS",
    "Raw material lot tracking and traceability"⟩,
   ⟨"inventory_transactions", "TABLE_ID_INVENTORY_TRANSACTIONS",
    "Inventory movement and transaction logs"⟩,
   ⟨"finished_goods", "TABLE_ID_FINISHED_GOODS",
    "Finished product inventory tracking"⟩,
   ⟨"cycle_counts", "TABLE_ID_CYCLE_COUNTS",
    "Inventory cycle count records"⟩,
   ⟨"fg_parts_mapping", "TABLE_ID_FG_PARTS_MAPPING",
    "Finished Goods to Parts BOM mapping"⟩,
   ⟨"label_inventory", "TABLE_ID_LABEL_INVENTORY",
    "Label inventory tracking by label code"⟩,
   ⟨"parts", "TABLE_ID_PARTS",
    "Parts/Components/Raw Materials master table"⟩]

structure TableInfo where
  name : String
  id : Int
  description : String
deriving DecidableEq

/-- The populated `tableMap` of `AllowListManager` after initialization. -/
structure AllowListState where
  tableMap : List (String × TableInfo)
deriving DecidableEq

/-- `AllowListManager.isTableAllowed`: member of the static enumeration AND
present in the configured table map. -/
def isTableAllowed (st : AllowListState) (tableName : String) : Bool :=
  ALLOWED_TABLE_NAMES.contains tableName && (st.tableMap.lookup tableName).isSome

/-- The `UnauthorizedTableAccessError` thrown by the gate. -/
structure UnauthorizedTableAccessError where
  tableName : String
deriving DecidableEq

/-- The fixed `code` field of `UnauthorizedTableAccessError`. -/
def UnauthorizedTableAccessError.code (_ : UnauthorizedTableAccessError) : String :=
  "UNAUTHORIZED_TABLE_ACCESS"

/-- The error message of `UnauthorizedTableAccessError`. -/
def UnauthorizedTableAccessError.message (e : UnauthorizedTableAccessError) : String :=
  "Access denied: Table \"" ++ e.tableName ++ "\" is not authorized for access"

/-- `AllowListManager.getTableId`. -/
def getTableId (st : AllowListState) (tableName : String) :
    Except UnauthorizedTableAccessError Int :=
  if !isTableAllowed st tableName then .error ⟨tableName⟩
  else
    match st.tableMap.lookup tableName with
    | none => .error ⟨tableName⟩
    | some info => .ok info.id

/-- `TablesService.validateAndGetTableId`. -/
def validateAndGetTableId (st : AllowListState) (tableName : String) :
    Except UnauthorizedTableAccessError Int :=
  if !isTableAllowed st tableName then .error ⟨tableName⟩
  else getTableId st tableName

/-! ### Allow-list initialization (`AllowListManager.initialize`) -/

/-- Environment-truthiness plus `parseInt` acceptance of one configured
entry: the env value is present, non-empty (JS truthy), and parses to a
positive integer. -/
def envEntryGood (env : String → Option String) (c : TableConfig) : Bool :=
  match env c.envKey with
  | none => false
  | some s =>
    s ≠ "" &&
      match jsParseInt s with
      | none => false
      | some i => 0 < i

/-- A configured entry that makes `initialize` throw: present, non-empty,
but `parseInt` yields `NaN` or a non-positive value. -/
def envEntryBad (env : String → Option String) (c : TableConfig) : Bool :=
  match env c.envKey with
  | none => false
  | some s =>
    s ≠ "" &&
      match jsParseInt s with
      | none => true
      | some i => i ≤ 0

/-- A configured entry that `initialize` treats as missing and only warns
about: the env value is absent or the empty string (JS falsy). -/
def envEntryMissing (env : String → Option String) (c : TableConfig) : Bool :=
  match env c.envKey with
  | none => true
  | some s => s = ""

/-- The registration loop of `initialize`: walks `TABLE_CONFIGS`, collecting
the table map and the missing-table warnings, throwing on a malformed id. -/
def registerLoop (env : String → Option String) :
    List TableConfig → List (String × TableInfo) → List String →
    Except String (List (String × TableInfo) × List String)
  | [], map, missing => .ok (map, missing)
  | c :: rest, map, missing =>
    match env c.envKey with
    | none => registerLoop env rest map (missing ++ [c.name ++ " (" ++ c.envKey ++ ")"])
    | some idStr =>
      if idStr = "" then
        registerLoop env rest map (missing ++ [c.name ++ " (" ++ c.envKey ++ ")"])
      else
        match jsParseInt idStr with
        | none =>
          .error ("Invalid table ID for " ++ c.name ++ ": " ++ idStr ++
            " - must be a positive integer")
        | some tableId =>
          if tableId ≤ 0 then
            .error ("Invalid table ID for " ++ c.name ++ ": " ++ idStr ++
              " - must be a positive integer")
          else
            registerLoop env rest
              (jsMapSet map c.name ⟨c.name, tableId, c.description⟩) missing

/-- The method `AllowListManager.initialize` (the name is shortened to
`initAllowList` here): on success returns the allow-list state together
with the list of missing-table warnings that were logged. -/
def initAllowList (env : String → Option String) :
    Except String (AllowListState × List String) :=
  match registerLoop env TABLE_CONFIGS [] [] with
  | .error e => .error e
  | .ok (map, missing) =>
    if map.isEmpty then
      .error "No tables configured. Please set at least one TABLE_ID_* environment variable."
    else .ok (⟨map⟩, missing)

/-! ## Baserow records and list responses (types/mcp.ts) -/

/-- A `BaserowRecord`: numeric `id`, string `order`, and the remaining
fields in JSON document order (`id`/`order` are kept apart so that the
shaper's skip of those two keys is explicit). -/
structure BRecord where
  id : Int
  order : String
  fields : List (String × Value)

/-- A `BaserowListResponse`. -/
structure ListResponse where
  count : Int
  next : Option String
  previous : Option String
  results : List BRecord

/-! ## Table Operations Service with outbound-call traces

`ClientCall` records one HTTP request issued by `BaserowClient`; every
service operation returns its result next to the ordered list of calls it
made, so "performs no outbound HTTP call" is `trace = []`. -/

inductive ClientCall where
  | list (tableId : Int) (filters : List (String × String)) (page size : Option Nat)
  | create (tableId : Int) (data : List (String × FieldVal))
  | update (tableId : Int) (recordId : Int) (data : List (String × FieldVal))
  | delete (tableId : Int) (recordId : Int)

/-- The remote store's behaviour, as seen through `BaserowClient`: what each
kind of request would return.  `createResp`/`updateResp` give the record the
store would answer with. -/
structure Backend where
  listResp : Int → List (String × String) → Option Nat → Option Nat → ListResponse
  createResp : Int → List (String × FieldVal) → BRecord
  updateResp : Int → Int → List (String × FieldVal) → BRecord

/-- `TablesService.readRecords`: validate-then-call. -/
def readRecords (st : AllowListState) (be : Backend) (tableName : String)
    (filters : List (String × String)) (page size : Option Nat) :
    Except UnauthorizedTableAccessError ListResponse × List ClientCall :=
  match validateAndGetTableId st tableName with
  | .error e => (.error e, [])
  | .ok tableId =>
    (.ok (be.listResp tableId filters page size), [.list tableId filters page size])

/-- `TablesService.createRecord`. -/
def createRecord (st : AllowListState) (be : Backend) (tableName : String)
    (data : List (String × FieldVal)) :
    Except UnauthorizedTableAccessError BRecord × List ClientCall :=
  match validateAndGetTableId st tableName with
  | .error e => (.error e, [])
  | .ok tableId => (.ok (be.createResp tableId data), [.create tableId data])

/-- `TablesService.updateRecord`. -/
def updateRecord (st : AllowListState) (be : Backend) (tableName : String)
    (recordId : Int) (data : List (String × FieldVal)) :
    Except UnauthorizedTableAccessError BRecord × List ClientCall :=
  match validateAndGetTableId st tableName with
  | .error e => (.error e, [])
  | .ok tableId => (.ok (be.updateResp tableId recordId data), [.update tableId recordId data])

/-- `TablesService.deleteRecord`. -/
def deleteRecord (st : AllowListState) (_be : Backend) (tableName : String)
    (recordId : Int) :
    Except UnauthorizedTableAccessError Unit × List ClientCall :=
  match validateAndGetTableId st tableName with
  | .error e => (.error e, [])
  | .ok tableId => (.ok (), [.delete tableId recordId])

/-! ## Response shaper (handler.ts: simplifyRecord / simplifyResponse) -/

def MAX_RESPONSE_CHARS : Nat := 50000

def MAX_RECORDS_PER_PAGE : Nat := 25

/-- The fixed `FIELDS_TO_SIMPLIFY` list of known-large field names. -/
def FIELDS_TO_SIMPLIFY : List String :=
  ["AMAZON SALES & INVENTORY", "ShipStation SKU Mapping",
   "TikTok Sales & Inventory", "Walmart Sales & Inventory - Finished Goods",
   "FBA Inventory Qty", "WH Inventory Qty", "Amazon Inventory Health",
   "Fulfillment Orders", "Manufacturing Orders", "FG Parts Mapping",
   "Inventory Transactions", "MO Parts Usage", "Cycle Count Log",
   "Kit Components Mapping", "Kit Parts Mapping", "Kitting Orders",
   "Mo Plan", "Mo Plan 2", "IHF Order Summary By Day",
   "Manufacturing Batches", "FO Plan (Multi-Channel) v2",
   "IHF Sales & Inventory", "Receiving Log", "Count Cycle Schedule",
   "Labels", "Finished Goods Inventory"]

/-- The per-entry simplification applied inside small (≤ 3 entry) arrays:
an object with an `id` key keeps only `{id, value}`, anything else is kept
as is (the value key is dropped when absent, as `JSON.stringify` drops
`undefined` object properties). -/
def simplifyLinkItem (item : Value) : Value :=
  match item with
  | .obj kvs =>
    match kvs.lookup "id" with
    | none => item
    | some idv =>
      match kvs.lookup "value" with
      | none => .obj [("id", idv)]
      | some v => .obj [("id", idv), ("value", v)]
  | _ => item

/-- The collapsed `_first` item used for large arrays: `{id}` if the first
item is an object with an `id` key, otherwise the first item itself. -/
def collapseFirst (item : Value) : Value :=
  match item with
  | .obj kvs =>
    match kvs.lookup "id" with
    | none => item
    | some idv => .obj [("id", idv)]
  | _ => item

/-- The three-way array simplification of `simplifyRecord`: empty arrays
stay empty, arrays of at most 3 entries keep `{id, value}` per entry, and
larger arrays collapse to `{_count, _first, _note}`. -/
def simplifyArrayField (xs : List Value) : Value :=
  if xs.length = 0 then .arr []
  else if xs.length ≤ 3 then .arr (xs.map simplifyLinkItem)
  else
    .obj [("_count", .num xs.length),
          ("_first",
            match xs.head? with
            | some f => collapseFirst f
            | none => .null),
          ("_note", .str (toString xs.length ++ " items (simplified)"))]

/-- The field loop of `simplifyRecord`: fields whose name is in
`FIELDS_TO_SIMPLIFY` and whose value is an array are simplified, every
other field is copied unchanged. -/
def simplifyFields : List (String × Value) → List (String × Value)
  | [] => []
  | (k, v) :: rest =>
    (k,
      if FIELDS_TO_SIMPLIFY.contains k && v.isArr then
        match v with
        | .arr xs => simplifyArrayField xs
        | _ => v
      else v) :: simplifyFields rest

/-- `simplifyRecord`: keeps `id` and `order`, simplifies known-large array
fields, copies the rest. -/
def simplifyRecord (r : BRecord) : BRecord :=
  { id := r.id, order := r.order, fields := simplifyFields r.fields }

/-! ### JSON serialization (for the character-budget check)

`simplifyResponse` measures `JSON.stringify(simplifiedResults).length`;
the serializer is embedded below over `Value`. -/

/-- Hexadecimal digit for escape sequences. -/
def hexDigit (n : Nat) : Char :=
  if n < 10 then Char.ofNat ('0'.toNat + n) else Char.ofNat ('a'.toNat + (n - 10))

/-- JSON escaping of a single character, as `JSON.stringify` performs it. -/
def escChar (c : Char) : String :=
  if c = '"' then "\\\""
  else if c = '\\' then "\\\\"
  else if c = '\n' then "\\n"
  else if c = '\r' then "\\r"
  else if c = '\t' then "\\t"
  else if c.toNat = 8 then "\\b"
  else if c.toNat = 12 then "\\f"
  else if c.toNat < 32 then
    "\\u00" ++ String.mk [hexDigit (c.toNat / 16), hexDigit (c.toNat % 16)]
  else String.singleton c

/-- JSON escaping of a whole string (without the surrounding quotes). -/
def escapeString (s : String) : String :=
  s.data.foldl (fun acc c => acc ++ escChar c) ""

mutual

/-- `JSON.stringify` over `Value`. -/
def stringifyValue : Value → String
  | .null => "null"
  | .bool true => "true"
  | .bool false => "false"
  | .num n => toString n
  | .str s => "\"" ++ escapeString s ++ "\""
  | .arr xs => "[" ++ stringifyArr xs ++ "]"
  | .obj kvs => "\x7b" ++ stringifyObj kvs ++ "\x7d"

/-- Comma-joined serialization of array elements. -/
def stringifyArr : List Value → String
  | [] => ""
  | [v] => stringifyValue v
  | v :: rest => stringifyValue v ++ "," ++ stringifyArr rest

/-- Comma-joined serialization of object properties. -/
def stringifyObj : List (String × Value) → String
  | [] => ""
  | [(k, v)] => "\"" ++ escapeString k ++ "\":" ++ stringifyValue v
  | (k, v) :: rest =>
    "\"" ++ escapeString k ++ "\":" ++ stringifyValue v ++ "," ++ stringifyObj rest

end

/-- A record as the JSON object it serializes to. -/
def recordToValue (r : BRecord) : Value :=
  .obj (("id", .num r.id) :: ("order", .str r.order) :: r.fields)

/-- `JSON.stringify` of a list of records. -/
def stringifyResults (rs : List BRecord) : String :=
  stringifyValue (.arr (rs.map recordToValue))

/-- The shaped list response: the original envelope plus the optional
`_note` attached by `simplifyResponse`. -/
structure ShapedResponse where
  count : Int
  next : Option String
  previous : Option String
  results : List BRecord
  note : Option String

/-- `simplifyResponse`: truncate to `MAX_RECORDS_PER_PAGE`, simplify each
record, then re-truncate to 10 with a note when the serialized size still
exceeds `MAX_RESPONSE_CHARS`, or attach a lighter note when the initial
truncation dropped records. -/
def simplifyResponse (resp : ListResponse) : ShapedResponse :=
  let limitedResults := resp.results.take MAX_RECORDS_PER_PAGE
  let simplifiedResults := limitedResults.map simplifyRecord
  let jsonStr := stringifyResults simplifiedResults
  if jsonStr.length > MAX_RESPONSE_CHARS ∧ simplifiedResults.length > 10 then
    { count := resp.count, next := resp.next, previous := resp.previous,
      results := simplifiedResults.take 10,
      note := some ("Response truncated: showing 10 of " ++ toString resp.count ++
        " records. Use filters for specific data.") }
  else if limitedResults.length < resp.results.length then
    { count := resp.count, next := resp.next, previous := resp.previous,
      results := simplifiedResults,
      note := some ("Response limited: showing " ++ toString limitedResults.length ++
        " of " ++ toString resp.count ++ " records. Use pagination or filters.") }
  else
    { count := resp.count, next := resp.next, previous := resp.previous,
      results := simplifiedResults, note := none }

/-! ## handleRead (handler.ts) -/

/-- The metadata attached to a successful `read` response. -/
structure ReadMetadata where
  count : Int
  page : Nat
  size : Nat
  next : Option String
  previous : Option String

/-- Result of `MCPHandler.handleRead` (the unauthorized error propagates to
the handler's catch clause and becomes a structured error response). -/
inductive ReadResult where
  | ok (data : ShapedResponse) (meta : ReadMetadata)
  | err (e : UnauthorizedTableAccessError)

/-- `MCPHandler.handleRead`: clamp the page size to `MAX_RECORDS_PER_PAGE`,
read through the table service, shape the response. -/
def handleRead (st : AllowListState) (be : Backend) (table : String)
    (filters : List (String × String)) (page size : Option Nat) :
    ReadResult × List ClientCall :=
  let limitedSize := min (size.getD 100) MAX_RECORDS_PER_PAGE
  let rr := readRecords st be table filters page (some limitedSize)
  match rr.1 with
  | .error e => (.err e, rr.2)
  | .ok resp =>
    (.ok (simplifyResponse resp)
      { count := resp.count, page := page.getD 1, size := limitedSize,
        next := resp.next, previous := resp.previous }, rr.2)

/-! ## get_bom (handler.ts: handleGetBOM) -/

/-- JS falsiness of an optional numeric id (`undefined` and `0` are falsy). -/
def jsFalsyIntOpt : Option Int → Bool
  | none => true
  | some i => i = 0

/-- A finished-goods record, as consumed by the iSKU lookup. -/
structure FGRec where
  id : Int

/-- A `fg_parts_mapping` record: the `Part` and `Finished Good` link fields
(`none` models an absent field), the `Part Role` single-select value, and
the stringified `Quantity` value. -/
structure MappingRecord where
  id : Int
  part : Option (List LinkRef)
  finishedGood : Option (List LinkRef)
  partRole : Option String
  quantity : Option String

/-- `part[0]?.id || 0`. -/
def linkHeadId (l : List LinkRef) : Int :=
  match l.head? with
  | some p => if p.id = 0 then 0 else p.id
  | none => 0

/-- `part[0]?.value || 'Unknown'`. -/
def linkHeadName (l : List LinkRef) : String :=
  match l.head? with
  | some p => if p.value = "" then "Unknown" else p.value
  | none => "Unknown"

/-- One projected BOM item. -/
structure BOMItem where
  mapping_id : Int
  part_id : Int
  part_name : String
  quantity_per_unit : Option ℚ
  part_role : String
deriving DecidableEq

/-- The projection `{mapping_id, part_id, part_name, quantity_per_unit,
part_role}` of one retained mapping (`quantity_per_unit` is
`parseFloat(String(mapping.Quantity || "0"))`, `none` modelling `NaN`). -/
def projectBOMItem (m : MappingRecord) (part : List LinkRef) : BOMItem :=
  { mapping_id := m.id,
    part_id := linkHeadId part,
    part_name := linkHeadName part,
    quantity_per_unit := jsParseFloat (jsOrStr m.quantity "0"),
    part_role := jsOrStr m.partRole "Unknown" }

/-- The filtering loop of `handleGetBOM`: retain the mappings whose
`Finished Good` link's first entry is the target id, project those with a
non-empty `Part` link, and capture the iSKU from the first retained
mapping when it was not supplied. -/
def bomScan (targetFgId : Int) : List MappingRecord → String → List BOMItem × String
  | [], isku => ([], isku)
  | m :: rest, isku =>
    match m.finishedGood with
    | none => bomScan targetFgId rest isku
    | some fg =>
      if decide (fg.length > 0) &&
          (match fg.head? with | some f => decide (f.id = targetFgId) | none => false) then
        let items :=
          match m.part with
          | some part => if part.length > 0 then [projectBOMItem m part] else []
          | none => []
        let isku2 :=
          if decide (isku = "") &&
              (match fg.head? with | some f => decide (f.value ≠ "") | none => false) then
            (fg.head?.map (·.value)).getD ""
          else isku
        let r := bomScan targetFgId rest isku2
        (items ++ r.1, r.2)
      else bomScan targetFgId rest isku

/-- The remote data `handleGetBOM` consults: the result list of the
filtered finished-goods read (filter `iSKU = isku`, page 1, size 1), and
the result list of the unfiltered `fg_parts_mapping` read (page 1,
size 200). -/
structure GetBOMStore where
  fgByIsku : String → List FGRec
  mappings : List MappingRecord

structure GetBOMResponse where
  fg_id : Int
  fg_isku : String
  parts : List BOMItem
  total_parts : Nat
deriving DecidableEq

inductive GetBOMResult where
  | ok (r : GetBOMResponse)
  | err (code msg : String)
deriving DecidableEq

/-- `MCPHandler.handleGetBOM`. -/
def handleGetBOM (st : GetBOMStore) (fgId : Option Int) (isku : Option String) :
    GetBOMResult :=
  let resolved : Except GetBOMResult (Option Int × String) :=
    if jsFalsyIntOpt fgId ∧ optStrTruthy isku then
      match (st.fgByIsku (isku.getD "")).head? with
      | none =>
        .error (.err "FG_NOT_FOUND"
          ("Finished Good with iSKU \"" ++ isku.getD "" ++ "\" not found"))
      | some fg => .ok (some fg.id, isku.getD "")
    else .ok (fgId, jsOrStr isku "")
  match resolved with
  | .error e => e
  | .ok tgt =>
    if jsFalsyIntOpt tgt.1 then
      .err "INVALID_REQUEST" "Either fg_id or isku must be provided"
    else
      let fgIdVal := tgt.1.getD 0
      let scan := bomScan fgIdVal st.mappings tgt.2
      .ok ⟨fgIdVal, scan.2, scan.1, scan.1.length⟩

/-! ## search_parts (handler.ts: handleSearchParts) -/

/-- A record of the `parts` table: the candidate name fields consulted by
the index builder (`none` models an absent field). -/
structure PartRec where
  id : Int
  bomId : Option String
  name : Option String
  partName : Option String
  isku : Option String
  partNumber : Option String
  sku : Option String

/-- `part["BOM ID"] || part["Name"] || part["Part Name"] || part["iSKU"] ||
part["Part Number"] || part["SKU"] || ""`. -/
def partPrimaryName (p : PartRec) : String :=
  jsOrStr p.bomId (jsOrStr p.name (jsOrStr p.partName
    (jsOrStr p.isku (jsOrStr p.partNumber (jsOrStr p.sku "")))))

structure PartEntry where
  part_id : Int
  part_name : String
deriving DecidableEq

/-- Adding one part record to the name index (skipping empty names and
keying by the lower-cased name). -/
def addPart (idx : List (String × PartEntry)) (p : PartRec) : List (String × PartEntry) :=
  let partName := partPrimaryName p
  if partName ≠ "" then jsMapSet idx (jsToLower partName) ⟨p.id, partName⟩ else idx

/-- One page of the paged `parts` read (`nextIsNull` is whether the
response's `next` field was `null`). -/
structure PartsPage where
  results : List PartRec
  nextIsNull : Bool

/-- The paging loop of `handleSearchParts`: load pages while the store
reports more and the page counter has not passed 50. -/
def loadPartsLoop (pages : Nat → PartsPage) :
    Nat → Nat → List (String × PartEntry) → List (String × PartEntry)
  | 0, _, idx => idx
  | fuel + 1, page, idx =>
    let pg := pages page
    let idx2 := pg.results.foldl addPart idx
    let hasMore := !pg.nextIsNull && pg.results.length > 0
    if hasMore ∧ page + 1 ≤ 50 then loadPartsLoop pages fuel (page + 1) idx2 else idx2

/-- The full name index built from the paged `parts` table. -/
def buildPartsIndex (pages : Nat → PartsPage) : List (String × PartEntry) :=
  loadPartsLoop pages 50 1 []

structure PartSearchResult where
  part_id : Int
  part_name : String
  search_term : String
  found : Bool
deriving DecidableEq

/-- The per-term search: exact case-insensitive lookup first, then the
substring fallback in index insertion order. -/
def searchOne (idx : List (String × PartEntry)) (term : String) : PartSearchResult :=
  let termLower := jsToLower term
  let found : Option PartEntry :=
    match idx.lookup termLower with
    | some e => some e
    | none =>
      (idx.find? (fun kv => jsIncludes kv.1 termLower || jsIncludes termLower kv.1)).map
        (fun kv => kv.2)
  match found with
  | some e => ⟨e.part_id, e.part_name, term, true⟩
  | none => ⟨0, "", term, false⟩

structure SearchPartsResponse where
  results : List PartSearchResult
  found_count : Nat
  not_found : List String
deriving DecidableEq

/-- `MCPHandler.handleSearchParts`. -/
def handleSearchParts (pages : Nat → PartsPage) (terms : List String) :
    SearchPartsResponse :=
  let idx := buildPartsIndex pages
  let results := terms.map (searchOne idx)
  { results := results,
    found_count := (results.filter (fun r => r.found)).length,
    not_found := (results.filter (fun r => !r.found)).map (fun r => r.search_term) }

/-! ## process_bpr (handler.ts: handleProcessBPR)

The composite workflows call the table service with allow-listed constant
table names; `SCall` records those service invocations, each of which
corresponds to exactly one outbound HTTP request when the tables are
configured. -/

inductive SCall where
  | read (table : String) (filters : List (String × String)) (page size : Nat)
  | create (table : String) (data : List (String × FieldVal))
  | update (table : String) (recordId : Int) (data : List (String × FieldVal))
deriving DecidableEq

def MO_STATUS_CLOSED : Int := 4554566

def DEDUCTION_METHOD_ACTUAL_USAGE : Int := 4669016

/-- A validated `PartsUsageItem` request entry. -/
structure PartsUsageItem where
  bom_id : Int
  quantity : ℚ
  lot_id : Option Int
  lot_number : Option String
  label_id : Option Int
  label_code : Option String
  waste : Option ℚ
  notes : Option String

/-- A validated `process_bpr` request. -/
structure BPRArgs where
  mo_number : String
  completion_date : String
  gross_produced : String
  parts_usage : List PartsUsageItem
  entered_by : Option String

/-- A manufacturing-order record (only its id is consumed). -/
structure MORec where
  id : Int

/-- A `raw_material_lots` record. -/
structure LotRec where
  id : Int
  internalLotNumber : Option String

/-- A `label_inventory` record (`partBomId` is the `Part BOM ID` link). -/
structure LabelRec where
  id : Int
  partBomId : Option (List LinkRef)

/-- The `{part_id, fg_id, part_name}` entry of the BOM lookup map. -/
structure BomInfo where
  part_id : Int
  fg_id : Int
  part_name : String
deriving DecidableEq

/-- The remote data and write outcomes one `process_bpr` run observes:
`createResult i` is the id answered by the store for the i-th create call
(`none` models a thrown API/connection error), `updateOk` whether the
final MO update succeeds. -/
structure BPRStore where
  moByNumber : String → List MORec
  mappings : List MappingRecord
  lots : List LotRec
  labels : List LabelRec
  createResult : Nat → Option Int
  updateOk : Bool

/-- One step of the BOM-lookup construction: retain mappings whose id is in
the requested set and whose `Part` and `Finished Good` links are both
non-empty. -/
def addBomMapping (bomIds : List Int) (lk : List (Int × BomInfo)) (m : MappingRecord) :
    List (Int × BomInfo) :=
  if bomIds.contains m.id then
    match m.part, m.finishedGood with
    | some part, some fg =>
      if decide (part.length > 0) && decide (fg.length > 0) then
        jsMapSet lk m.id ⟨linkHeadId part, linkHeadId fg, linkHeadName part⟩
      else lk
    | _, _ => lk
  else lk

def buildBomLookup (bomIds : List Int) (ms : List MappingRecord) : List (Int × BomInfo) :=
  ms.foldl (addBomMapping bomIds) []

/-- One step of the lot-lookup construction: exact, case-sensitive match on
the `Internal Lot Number` field. -/
def addLot (lotNumbers : List String) (lk : List (String × Int)) (lot : LotRec) :
    List (String × Int) :=
  match lot.internalLotNumber with
  | some n => if decide (n ≠ "") && lotNumbers.contains n then jsMapSet lk n lot.id else lk
  | none => lk

/-- The three-way label-code match of handler.ts: case-insensitive equality
or substring containment in either direction. -/
def labelCodeMatch3 (code labelCode : String) : Bool :=
  decide (jsToLower code = jsToLower labelCode) ||
  jsIncludes (jsToLower labelCode) (jsToLower code) ||
  jsIncludes (jsToLower code) (jsToLower labelCode)

/-- One step of the label-lookup construction of handler.ts: match the
first entry of the `Part BOM ID` link against the requested codes, first
matching code wins. -/
def addLabel (labelCodes : List String) (lk : List (String × Int)) (label : LabelRec) :
    List (String × Int) :=
  match label.partBomId with
  | some refs =>
    if refs.length > 0 then
      let labelCode := (refs.head?.map (·.value)).getD ""
      if decide (labelCode ≠ "") && labelCodes.any (fun code => labelCodeMatch3 code labelCode) then
        match labelCodes.find? (fun code => labelCodeMatch3 code labelCode) with
        | some matchedCode => jsMapSet lk matchedCode label.id
        | none => lk
      else lk
    else lk
  | none => lk

/-- `a || b` over optional numeric ids (`undefined` and `0` falsy). -/
def jsOrIntOpt (a b : Option Int) : Option Int :=
  match a with
  | some i => if i = 0 then b else some i
  | none => b

/-- The resolved optional lot id of one item: the direct `lot_id` when
truthy, otherwise the lookup by `lot_number` when that is truthy. -/
def resolvedLotId (lotLookup : List (String × Int)) (p : PartsUsageItem) : Option Int :=
  jsOrIntOpt p.lot_id
    (match p.lot_number with
     | some n => if n = "" then none else lotLookup.lookup n
     | none => none)

/-- The resolved optional label id of one item. -/
def resolvedLabelId (labelLookup : List (String × Int)) (p : PartsUsageItem) : Option Int :=
  jsOrIntOpt p.label_id
    (match p.label_code with
     | some c => if c = "" then none else labelLookup.lookup c
     | none => none)

/-- The optional entries appended for a truthy resolved id. -/
def optLinkEntry (key : String) : Option Int → List (String × FieldVal)
  | some i => if i ≠ 0 then [(key, .links [i])] else []
  | none => []

/-- The `usageData` object built for one parts-usage item in handler.ts:
MO/Part/FG links, quantity, defaulted notes and entered-by, then the
optionally resolved lot/label links and the waste amount, appended in the
assignment order of the source. -/
def usageDataFor (moNumber : String) (enteredBy : Option String) (moId : Int)
    (bomInfo : BomInfo) (lotLookup labelLookup : List (String × Int))
    (p : PartsUsageItem) : List (String × FieldVal) :=
  [("Manufacturing Order", .links [moId]),
   ("Parts", .links [bomInfo.part_id]),
   ("Finished Goods", .links [bomInfo.fg_id]),
   ("Actual Quantity Used", .num p.quantity),
   ("Notes", .str (jsOrStr p.notes ("From BPR scan - " ++ moNumber))),
   ("Entered By", .str (jsOrStr enteredBy "Alexa via Claude"))] ++
  optLinkEntry "RM Lot Inventory Used" (resolvedLotId lotLookup p) ++
  optLinkEntry "Label Inventory Used" (resolvedLabelId labelLookup p) ++
  (match p.waste with
   | some w => [("Waste/Spillage", FieldVal.num w)]
   | none => [])

/-- The sequential creation loop of handler.ts step 3: one create call per
item, in input order, aborting on the first failed creation (`none`: the
error propagates).  Returns the created ids and the calls issued. -/
def createLoop (store : BPRStore) (moNumber : String) (enteredBy : Option String)
    (moId : Int) (bomLookup : List (Int × BomInfo))
    (lotLookup labelLookup : List (String × Int)) :
    Nat → List PartsUsageItem → Option (List Int) × List SCall
  | _, [] => (some [], [])
  | callIdx, p :: rest =>
    let bomInfo := (bomLookup.lookup p.bom_id).getD ⟨0, 0, "Unknown"⟩
    let data := usageDataFor moNumber enteredBy moId bomInfo lotLookup labelLookup p
    match store.createResult callIdx with
    | none => (none, [SCall.create "mo_parts_usage" data])
    | some rid =>
      let r := createLoop store moNumber enteredBy moId bomLookup lotLookup labelLookup
        (callIdx + 1) rest
      (r.1.map (fun ids => rid :: ids), SCall.create "mo_parts_usage" data :: r.2)

/-- The single MO update payload of step 4. -/
def moUpdateData (completionDate grossProduced : String) : List (String × FieldVal) :=
  [("MO Status", .num (MO_STATUS_CLOSED : ℚ)),
   ("Deduction Method", .num (DEDUCTION_METHOD_ACTUAL_USAGE : ℚ)),
   ("MFG Date Completed", .str completionDate),
   ("Gross Produced", .str grossProduced),
   ("Actual Usage Complete", .bool true),
   ("MO Inventory Processed", .bool true)]

structure ProcessBPRResponse where
  success : Bool
  mo_id : Int
  mo_number : String
  parts_usage_created : Nat
  parts_usage_ids : List Int
  mo_updated : Bool
  summary : String
deriving DecidableEq

/-- Result of one `process_bpr` run: a success payload, a structured domain
error, or a thrown error propagating to the handler's catch clause. -/
inductive BPRResult where
  | ok (r : ProcessBPRResponse)
  | err (code msg : String)
  | thrown
deriving DecidableEq

/-- The lot numbers needing lookup: items with a truthy `lot_number` and a
falsy `lot_id`. -/
def lotNumbersNeedingLookup (a : BPRArgs) : List String :=
  (a.parts_usage.filter (fun p => optStrTruthy p.lot_number && jsFalsyIntOpt p.lot_id)).map
    (fun p => p.lot_number.getD "")

/-- The label codes needing lookup: items with a truthy `label_code` and a
falsy `label_id`. -/
def labelCodesNeedingLookup (a : BPRArgs) : List String :=
  (a.parts_usage.filter (fun p => optStrTruthy p.label_code && jsFalsyIntOpt p.label_id)).map
    (fun p => p.label_code.getD "")

/-- The bom-id lookup map built in step 2. -/
def bprBomLookup (store : BPRStore) (a : BPRArgs) : List (Int × BomInfo) :=
  buildBomLookup (a.parts_usage.map (fun p => p.bom_id)) store.mappings

/-- The lot lookup map of step 2.5 (empty when no lot number needs lookup,
in which case no read of `raw_material_lots` is issued either). -/
def bprLotLookup (store : BPRStore) (a : BPRArgs) : List (String × Int) :=
  if (lotNumbersNeedingLookup a).length > 0 then
    store.lots.foldl (addLot (lotNumbersNeedingLookup a)) []
  else []

/-- The label lookup map of step 2.5 (handler.ts variant). -/
def bprLabelLookup (store : BPRStore) (a : BPRArgs) : List (String × Int) :=
  if (labelCodesNeedingLookup a).length > 0 then
    store.labels.foldl (addLabel (labelCodesNeedingLookup a)) []
  else []

/-- The reads issued before the creation loop, in order. -/
def bprPreTrace (a : BPRArgs) : List SCall :=
  [SCall.read "manufacturing_orders" [("MO Number", a.mo_number)] 1 1,
   SCall.read "fg_parts_mapping" [] 1 200] ++
  (if (lotNumbersNeedingLookup a).length > 0 then [SCall.read "raw_material_lots" [] 1 200]
   else []) ++
  (if (labelCodesNeedingLookup a).length > 0 then [SCall.read "label_inventory" [] 1 200]
   else [])

/-- The `usageData` payload of the create call for item `p` of request `a`
(handler.ts variant). -/
def bprCreateData (store : BPRStore) (a : BPRArgs) (moId : Int) (p : PartsUsageItem) :
    List (String × FieldVal) :=
  usageDataFor a.mo_number a.entered_by moId
    (((bprBomLookup store a).lookup p.bom_id).getD ⟨0, 0, "Unknown"⟩)
    (bprLotLookup store a) (bprLabelLookup store a) p

/-- `MCPHandler.handleProcessBPR` (handler.ts): the five-step workflow. -/
def handleProcessBPR (store : BPRStore) (a : BPRArgs) : BPRResult × List SCall :=
  let moRead := SCall.read "manufacturing_orders" [("MO Number", a.mo_number)] 1 1
  match (store.moByNumber a.mo_number).head? with
  | none =>
    (.err "MO_NOT_FOUND" ("Manufacturing Order " ++ a.mo_number ++ " not found"), [moRead])
  | some mo =>
    let moId := mo.id
    let mappingsRead := SCall.read "fg_parts_mapping" [] 1 200
    let bomIds := a.parts_usage.map (fun p => p.bom_id)
    let missingBomIds := bomIds.filter (fun i => ((bprBomLookup store a).lookup i).isNone)
    if missingBomIds ≠ [] then
      (.err "BOM_NOT_FOUND" ("BOM mapping IDs not found: " ++ joinComma missingBomIds),
       [moRead, mappingsRead])
    else
      let cr := createLoop store a.mo_number a.entered_by moId (bprBomLookup store a)
        (bprLotLookup store a) (bprLabelLookup store a) 0 a.parts_usage
      match cr.1 with
      | none => (.thrown, bprPreTrace a ++ cr.2)
      | some ids =>
        let updCall := SCall.update "manufacturing_orders" moId
          (moUpdateData a.completion_date a.gross_produced)
        if store.updateOk then
          (.ok { success := true, mo_id := moId, mo_number := a.mo_number,
                 parts_usage_created := ids.length, parts_usage_ids := ids,
                 mo_updated := true,
                 summary := "BPR processed: MO " ++ a.mo_number ++ " closed with " ++
                   toString ids.length ++ " parts usage records. Gross produced: " ++
                   a.gross_produced },
           bprPreTrace a ++ cr.2 ++ [updCall])
        else (.thrown, bprPreTrace a ++ cr.2 ++ [updCall])

/-! ## process_bpr, Cloudflare-Worker variant (worker.ts: MCPServer.processBPR)

The Worker reimplements the workflow with three deviations that matter
here: the label-code match lacks the third (term-contains-name) disjunct,
there is no check that every requested `bom_id` was resolved, and the
creation loop silently skips (`continue`) items whose `bom_id` is absent
from the lookup, still updating the MO afterwards. -/

/-- The two-way label-code match of worker.ts. -/
def labelCodeMatch2 (code labelCode : String) : Bool :=
  decide (jsToLower code = jsToLower labelCode) ||
  jsIncludes (jsToLower labelCode) (jsToLower code)

/-- One step of the label-lookup construction of worker.ts. -/
def workerAddLabel (labelCodes : List String) (lk : List (String × Int)) (label : LabelRec) :
    List (String × Int) :=
  match label.partBomId with
  | some refs =>
    if refs.length > 0 then
      let labelCode := (refs.head?.map (·.value)).getD ""
      if labelCode ≠ "" then
        match labelCodes.find? (fun code => labelCodeMatch2 code labelCode) with
        | some matchedCode => jsMapSet lk matchedCode label.id
        | none => lk
      else lk
    else lk
  | none => lk

/-- The `usageData` object of worker.ts (entered-by already resolved). -/
def workerUsageDataFor (moNumber enteredBy : String) (moId : Int) (bomInfo : BomInfo)
    (lotLookup labelLookup : List (String × Int)) (p : PartsUsageItem) :
    List (String × FieldVal) :=
  [("Manufacturing Order", .links [moId]),
   ("Parts", .links [bomInfo.part_id]),
   ("Finished Goods", .links [bomInfo.fg_id]),
   ("Actual Quantity Used", .num p.quantity),
   ("Notes", .str (jsOrStr p.notes ("From BPR scan - " ++ moNumber))),
   ("Entered By", .str enteredBy)] ++
  optLinkEntry "RM Lot Inventory Used" (resolvedLotId lotLookup p) ++
  optLinkEntry "Label Inventory Used" (resolvedLabelId labelLookup p) ++
  (match p.waste with
   | some w => [("Waste/Spillage", FieldVal.num w)]
   | none => [])

/-- The creation loop of worker.ts: items with an unresolved `bom_id` are
skipped (`if (!bomInfo) continue`), not reported. -/
def workerCreateLoop (store : BPRStore) (moNumber enteredBy : String) (moId : Int)
    (bomLookup : List (Int × BomInfo)) (lotLookup labelLookup : List (String × Int)) :
    Nat → List PartsUsageItem → Option (List Int) × List SCall
  | _, [] => (some [], [])
  | callIdx, p :: rest =>
    match bomLookup.lookup p.bom_id with
    | none => workerCreateLoop store moNumber enteredBy moId bomLookup lotLookup labelLookup
        callIdx rest
    | some bomInfo =>
      let data := workerUsageDataFor moNumber enteredBy moId bomInfo lotLookup labelLookup p
      match store.createResult callIdx with
      | none => (none, [SCall.create "mo_parts_usage" data])
      | some rid =>
        let r := workerCreateLoop store moNumber enteredBy moId bomLookup lotLookup labelLookup
          (callIdx + 1) rest
        (r.1.map (fun ids => rid :: ids), SCall.create "mo_parts_usage" data :: r.2)

/-- The `data` payload of a successful worker `process_bpr` run. -/
structure WorkerBPRData where
  mo_id : Int
  mo_number : String
  parts_usage_created : Nat
  parts_usage_ids : List Int
  mo_updated : Bool
  summary : String
deriving DecidableEq

inductive WorkerBPRResult where
  | ok (r : WorkerBPRData)
  | err (code msg : String)
  | thrown
deriving DecidableEq

/-- `MCPServer.processBPR` (worker.ts). -/
def workerProcessBPR (store : BPRStore) (a : BPRArgs) : WorkerBPRResult × List SCall :=
  let enteredBy := jsOrStr a.entered_by "Alexa via Claude"
  let moRead := SCall.read "manufacturing_orders" [("MO Number", a.mo_number)] 1 1
  match (store.moByNumber a.mo_number).head? with
  | none => (.err "MO_NOT_FOUND" ("MO " ++ a.mo_number ++ " not found"), [moRead])
  | some mo =>
    let moId := mo.id
    let mappingsRead := SCall.read "fg_parts_mapping" [] 1 200
    let bomIds := a.parts_usage.map (fun p => p.bom_id)
    let bomLookup := buildBomLookup bomIds store.mappings
    let lotNumbersToLookup :=
      (a.parts_usage.filter (fun p => optStrTruthy p.lot_number && jsFalsyIntOpt p.lot_id)).map
        (fun p => p.lot_number.getD "")
    let labelCodesToLookup :=
      (a.parts_usage.filter (fun p => optStrTruthy p.label_code && jsFalsyIntOpt p.label_id)).map
        (fun p => p.label_code.getD "")
    let lotReads :=
      if lotNumbersToLookup.length > 0 then [SCall.read "raw_material_lots" [] 1 200] else []
    let lotLookup :=
      if lotNumbersToLookup.length > 0 then store.lots.foldl (addLot lotNumbersToLookup) []
      else []
    let labelReads :=
      if labelCodesToLookup.length > 0 then [SCall.read "label_inventory" [] 1 200] else []
    let labelLookup :=
      if labelCodesToLookup.length > 0 then
        store.labels.foldl (workerAddLabel labelCodesToLookup) []
      else []
    let cr := workerCreateLoop store a.mo_number enteredBy moId bomLookup lotLookup labelLookup
      0 a.parts_usage
    let preTrace := [moRead, mappingsRead] ++ lotReads ++ labelReads
    match cr.1 with
    | none => (.thrown, preTrace ++ cr.2)
    | some ids =>
      let updCall := SCall.update "manufacturing_orders" moId
        (moUpdateData a.completion_date a.gross_produced)
      if store.updateOk then
        (.ok { mo_id := moId, mo_number := a.mo_number,
               parts_usage_created := ids.length, parts_usage_ids := ids,
               mo_updated := true,
               summary := "BPR processed: MO " ++ a.mo_number ++ " closed with " ++
                 toString ids.length ++ " parts usage records" },
         preTrace ++ cr.2 ++ [updCall])
      else (.thrown, preTrace ++ cr.2 ++ [updCall])

/-! ## Trace predicates and statement-side definitions -/

/-- Whether a service call is a record creation. -/
def isCreateCall : SCall → Bool
  | .create _ _ => true
  | _ => false

/-- Whether a service call is a record update. -/
def isUpdateCall : SCall → Bool
  | .update _ _ _ => true
  | _ => false

/-- The retain-and-project decision of `handleGetBOM` for one mapping:
`some` exactly for mappings whose `Finished Good` link's first entry is the
target id and whose `Part` link is non-empty. -/
def retainProjectBOM (fgId : Int) (m : MappingRecord) : Option BOMItem :=
  match m.finishedGood with
  | some fg =>
    if decide (fg.length > 0) &&
        (match fg.head? with | some f => decide (f.id = fgId) | none => false) then
      match m.part with
      | some part => if part.length > 0 then some (projectBOMItem m part) else none
      | none => none
    else none
  | none => none

/-- Modelled from the spec words "a positive integer": the configured
identifier string is a non-empty, all-digit decimal numeral with a
positive value.  Used only to state the counterexample against the claim
as written. -/
def specPositiveIntString (s : String) : Bool :=
  !s.data.isEmpty && s.data.all (fun c => c.isDigit) && decide (digitsVal s.data > 0)

/-! ## Concrete fixtures for witnesses and counterexamples -/

/-- The trivial remote backend used by concrete witnesses. -/
def nullBackend : Backend :=
  { listResp := fun _ _ _ _ => ⟨0, none, none, []⟩,
    createResp := fun _ _ => ⟨0, "", []⟩,
    updateResp := fun _ _ _ => ⟨0, "", []⟩ }

/-- An allow-list state with only the `parts` table configured. -/
def partsOnlyState : AllowListState :=
  ⟨[("parts", ⟨"parts", 744797, "Parts/Components/Raw Materials master table"⟩)]⟩

/-- A remote store for `process_bpr` runs: one MO `MO-1` (id 77) and one
BOM mapping (id 10, part 501, finished good 900); creations succeed with
ids 3001, 3002, …; the MO update succeeds. -/
def bprStoreW : BPRStore :=
  { moByNumber := fun n => if n = "MO-1" then [⟨77⟩] else [],
    mappings := [⟨10, some [⟨501, "RM-X"⟩], some [⟨900, "FG-A"⟩], some "Component", some "2.5"⟩,
                 ⟨11, some [⟨502, "RM-Y"⟩], some [⟨900, "FG-A"⟩], none, none⟩],
    lots := [⟨61, some "LOT-9"⟩],
    labels := [],
    createResult := fun i => some (3001 + (i : Int)),
    updateOk := true }

/-- A `process_bpr` request whose second item references the absent BOM
mapping id 999. -/
def bprArgsMissing : BPRArgs :=
  { mo_number := "MO-1", completion_date := "2025-01-01", gross_produced := "100",
    parts_usage := [⟨10, 5, none, none, none, none, none, none⟩,
                    ⟨999, 7, none, none, none, none, none, none⟩],
    entered_by := none }

/-- A fully valid `process_bpr` request with two items, one resolving a lot
by number. -/
def bprArgsOk : BPRArgs :=
  { mo_number := "MO-1", completion_date := "2025-01-02", gross_produced := "858",
    parts_usage := [⟨10, 5, none, some "LOT-9", none, none, none, none⟩,
                    ⟨11, 7, none, none, none, none, some 1, none⟩],
    entered_by := some "QA" }

/-- The environment of the C8 counterexample: one identifier present but
equal to `"12abc"`, which is not a positive integer yet is accepted by
`parseInt`. -/
def envParseIntPrefix : String → Option String := fun k =>
  if k = "TABLE_ID_MANUFACTURING_ORDERS" then some "12abc" else none

/-- An environment configuring only the `parts` table. -/
def envPartsOnly : String → Option String := fun k =>
  if k = "TABLE_ID_PARTS" then some "744797" else none

/-- The allow-list state `initAllowList envPartsOnly` produces. -/
def statePartsOnlyInit : AllowListState :=
  ⟨[("parts", ⟨"parts", 744797, "Parts/Components/Raw Materials master table"⟩)]⟩

/-- The missing-table warnings `initAllowList envPartsOnly` logs. -/
def warnedPartsOnly : List String :=
  ["manufacturing_orders (TABLE_ID_MANUFACTURING_ORDERS)",
   "mo_parts_usage (TABLE_ID_MO_PARTS_USAGE)",
   "raw_material_lots (TABLE_ID_RAW_MATERIAL_LOTS)",
   "inventory_transactions (TABLE_ID_INVENTORY_TRANSACTIONS)",
   "finished_goods (TABLE_ID_FINISHED_GOODS)",
   "cycle_counts (TABLE_ID_CYCLE_COUNTS)",
   "fg_parts_mapping (TABLE_ID_FG_PARTS_MAPPING)",
   "label_inventory (TABLE_ID_LABEL_INVENTORY)"]

/-- A `get_bom` store: finished good 42 has iSKU `SKU-1`; three mappings,
of which one matches FG 42 with a part, one matches FG 42 without a part,
and one belongs to another FG. -/
def getBOMStoreW : GetBOMStore :=
  { fgByIsku := fun s => if s = "SKU-1" then [⟨42⟩] else [],
    mappings := [⟨201, some [⟨501, "RM-X"⟩], some [⟨42, "SKU-1"⟩], some "Component", some "1.5"⟩,
                 ⟨202, none, some [⟨42, "SKU-1"⟩], none, none⟩,
                 ⟨203, some [⟨502, "RM-Y"⟩], some [⟨43, "SKU-2"⟩], none, none⟩] }

/-- A single-page `parts` table: part 1 is named `ab`, part 2 `abc`. -/
def partsPagesW : Nat → PartsPage := fun p =>
  if p = 1 then
    ⟨[⟨1, some "ab", none, none, none, none, none⟩,
      ⟨2, some "abc", none, none, none, none, none⟩], true⟩
  else ⟨[], true⟩

/-- A record carrying a known-large link field with two entries and an
untouched plain field. -/
def recordLinksW : BRecord :=
  ⟨7, "1.00",
   [("Name", .str "Widget"),
    ("Labels", .arr [.obj [("id", .num 11), ("value", .str "L1")],
                     .obj [("id", .num 12), ("value", .str "L2")]])]⟩

/-- A small list response (no truncation applies). -/
def smallListRespW : ListResponse :=
  ⟨1, none, none, [recordLinksW]⟩

/-- A list response of 26 records, triggering the 25-record truncation but
not the character budget. -/
def longListRespW : ListResponse :=
  ⟨30, some "p2", none, List.replicate 26 ⟨1, "1", []⟩⟩

/-- A record whose fields are all outside the simplification scope: not in
the known-large list, or in it but not array-valued. -/
def recordFrameW : BRecord :=
  ⟨9, "2.00",
   [("Name", .str "x"), ("Labels", .num 3),
    ("Custom Field", .arr [.obj [("id", .num 1)]])]⟩

/-! # Theorems -/

/-- Claim C1: for every table name that is not in the static enumeration of
allowed table names, or is in it but has no configured identifier, each of
the operations read, create, update and delete returns the
`UnauthorizedTableAccess` error (code `UNAUTHORIZED_TABLE_ACCESS`, with the
offending table name attached) and performs no outbound HTTP call. -/
theorem unauthorized_table_no_outbound_call
    (st : AllowListState) (be : Backend) (name : String)
    (h : ALLOWED_TABLE_NAMES.contains name = false ∨ st.tableMap.lookup name = none) :
    ∀ (filters : List (String × String)) (page size : Option Nat)
      (data : List (String × FieldVal)) (recordId : Int),
      readRecords st be name filters page size = (.error ⟨name⟩, []) ∧
      createRecord st be name data = (.error ⟨name⟩, []) ∧
      updateRecord st be name recordId data = (.error ⟨name⟩, []) ∧
      deleteRecord st be name recordId = (.error ⟨name⟩, []) ∧
      UnauthorizedTableAccessError.code ⟨name⟩ = "UNAUTHORIZED_TABLE_ACCESS" ∧
      UnauthorizedTableAccessError.tableName ⟨name⟩ = name := by
  have hfalse : isTableAllowed st name = false := by
    unfold isTableAllowed
    rcases h with h | h
    · rw [h, Bool.false_and]
    · rw [h, Option.isSome_none, Bool.and_false]
  intro filters page size data recordId
  refine ⟨?_, ?_, ?_, ?_, rfl, rfl⟩ <;>
    simp [readRecords, createRecord, updateRecord, deleteRecord, validateAndGetTableId, hfalse]

/-- Witness for C1 at concrete inputs: `customers` is outside the
enumeration; `finished_goods` is enumerated but unconfigured in
`partsOnlyState`. -/
theorem unauthorized_table_no_outbound_call_witness :
    readRecords partsOnlyState nullBackend "customers" [] none none =
      (.error ⟨"customers"⟩, []) ∧
    deleteRecord partsOnlyState nullBackend "customers" 5 = (.error ⟨"customers"⟩, []) ∧
    createRecord partsOnlyState nullBackend "finished_goods" [] =
      (.error ⟨"finished_goods"⟩, []) ∧
    updateRecord partsOnlyState nullBackend "finished_goods" 5 [] =
      (.error ⟨"finished_goods"⟩, []) := by
  have h1 := unauthorized_table_no_outbound_call partsOnlyState nullBackend "customers"
    (Or.inl (by decide)) [] none none [] 5
  have h2 := unauthorized_table_no_outbound_call partsOnlyState nullBackend "finished_goods"
    (Or.inr (by decide)) [] none none [] 5
  exact ⟨h1.1, h1.2.2.2.1, h2.2.1, h2.2.2.1⟩

/-- The shaper never returns more than `MAX_RECORDS_PER_PAGE` records. -/
theorem simplifyResponse_length_le (resp : ListResponse) :
    (simplifyResponse resp).results.length ≤ MAX_RECORDS_PER_PAGE := by
  unfold simplifyResponse
  dsimp only
  split
  · simp only [List.length_take, List.length_map, MAX_RECORDS_PER_PAGE]
    omega
  · split <;>
      (simp only [List.length_take, List.length_map, MAX_RECORDS_PER_PAGE]; omega)

/-- Claim C4: a read whose `size` argument exceeds the 25-record service
cap (the validator having bounded it by 200) is clamped: the outbound list
call carries size 25, the shaped result never holds more than 25 records,
and the returned `metadata.size` equals the clamped value. -/
theorem handleRead_clamps_size
    (st : AllowListState) (be : Backend) (table : String)
    (filters : List (String × String)) (page : Option Nat) (n : Nat)
    (hallow : isTableAllowed st table = true) (h25 : 25 < n) (h200 : n ≤ 200) :
    ∃ tid,
      validateAndGetTableId st table = .ok tid ∧
      (handleRead st be table filters page (some n)).2 = [.list tid filters page (some 25)] ∧
      ∃ data meta, (handleRead st be table filters page (some n)).1 = .ok data meta ∧
        meta.size = 25 ∧ data.results.length ≤ 25 := by
  have hsome : (st.tableMap.lookup table).isSome = true := by
    unfold isTableAllowed at hallow
    exact (Bool.and_eq_true_iff.mp hallow).2
  obtain ⟨info, hinfo⟩ := Option.isSome_iff_exists.mp hsome
  have hval : validateAndGetTableId st table = .ok info.id := by
    unfold validateAndGetTableId getTableId
    rw [hallow, hinfo]
    rfl
  have hmin : min n MAX_RECORDS_PER_PAGE = 25 := by
    unfold MAX_RECORDS_PER_PAGE
    omega
  have hread : handleRead st be table filters page (some n) =
      (.ok (simplifyResponse (be.listResp info.id filters page (some 25)))
        { count := (be.listResp info.id filters page (some 25)).count,
          page := page.getD 1, size := 25,
          next := (be.listResp info.id filters page (some 25)).next,
          previous := (be.listResp info.id filters page (some 25)).previous },
       [.list info.id filters page (some 25)]) := by
    unfold handleRead readRecords
    simp only [Option.getD_some, hmin, hval]
  refine ⟨info.id, hval, ?_, ?_⟩
  · rw [hread]
  · rw [hread]
    exact ⟨_, _, rfl, rfl, by
      simpa [MAX_RECORDS_PER_PAGE] using
        simplifyResponse_length_le (be.listResp info.id filters page (some 25))⟩

/-- Witness for C4: reading `parts` with size 100 issues one list call of
size 25 and reports metadata size 25. -/
theorem handleRead_clamps_size_witness :
    ∃ tid,
      validateAndGetTableId partsOnlyState "parts" = .ok tid ∧
      (handleRead partsOnlyState nullBackend "parts" [] none (some 100)).2 =
        [.list tid [] none (some 25)] ∧
      ∃ data meta,
        (handleRead partsOnlyState nullBackend "parts" [] none (some 100)).1 = .ok data meta ∧
        meta.size = 25 ∧ data.results.length ≤ 25 :=
  handleRead_clamps_size partsOnlyState nullBackend "parts" [] none 100
    (by decide) (by omega) (by omega)

/-- Positional characterization of the field loop of `simplifyRecord`. -/
theorem simplifyFields_get_eq (l : List (String × Value)) (i : Nat) :
    (simplifyFields l).get? i = (l.get? i).map (fun kv =>
      (kv.1,
        if FIELDS_TO_SIMPLIFY.contains kv.1 && kv.2.isArr then
          match kv.2 with
          | .arr xs => simplifyArrayField xs
          | _ => kv.2
        else kv.2)) := by
  induction l generalizing i with
  | nil => simp [simplifyFields]
  | cons kv rest ih =>
    obtain ⟨k, v⟩ := kv
    cases i with
    | zero => rfl
    | succ j => simpa [simplifyFields] using ih j

/-- Claim C10: the per-record simplifier preserves `id` and `order`
unchanged, and maps every field whose name is not in the known-large list,
or whose value is not an array, to exactly its original value. -/
theorem simplifyRecord_frame (r : BRecord) :
    (simplifyRecord r).id = r.id ∧ (simplifyRecord r).order = r.order ∧
    ∀ i k v, r.fields.get? i = some (k, v) →
      (FIELDS_TO_SIMPLIFY.contains k = false ∨ v.isArr = false) →
      (simplifyRecord r).fields.get? i = some (k, v) := by
  refine ⟨rfl, rfl, ?_⟩
  intro i k v hget hcond
  show (simplifyFields r.fields).get? i = some (k, v)
  rw [simplifyFields_get_eq, hget]
  dsimp only [Option.map]
  have hg : (FIELDS_TO_SIMPLIFY.contains k && v.isArr) = false := by
    rcases hcond with h | h
    · rw [h, Bool.false_and]
    · rw [h, Bool.and_false]
  rw [hg]
  rfl

/-- Witness for C10: `id` kept; a known-large but non-array field and a
not-known-large array field both pass through unchanged. -/
theorem simplifyRecord_frame_witness :
    (simplifyRecord recordFrameW).id = 9 ∧
    (simplifyRecord recordFrameW).fields.get? 1 = some ("Labels", .num 3) ∧
    (simplifyRecord recordFrameW).fields.get? 2 =
      some ("Custom Field", .arr [.obj [("id", .num 1)]]) := by
  have h := simplifyRecord_frame recordFrameW
  exact ⟨h.1, h.2.2 1 "Labels" (.num 3) rfl (Or.inr rfl),
         h.2.2 2 "Custom Field" (.arr [.obj [("id", .num 1)]]) rfl (Or.inl (by decide))⟩

/-- Claim C7: known-large array-valued fields are simplified by the
three-way rule (empty stays empty, at most 3 entries keep `{id, value}`,
larger arrays collapse to `{_count, _first, _note}`); after simplification
the response is cut to exactly 10 records with an explanatory note when the
serialized results still exceed the 50000-character budget and more than 10
records remain; otherwise a record count dropped by the initial 25-record
truncation yields a lighter note; no truncation yields no note.  The shaper
is a total Lean function, so it never raises. -/
theorem simplifyResponse_spec (resp : ListResponse) :
    (∀ (r : BRecord) i k xs, r.fields.get? i = some (k, Value.arr xs) →
       FIELDS_TO_SIMPLIFY.contains k = true →
       (simplifyRecord r).fields.get? i = some (k,
         if xs.length = 0 then Value.arr []
         else if xs.length ≤ 3 then Value.arr (xs.map simplifyLinkItem)
         else Value.obj
           [("_count", Value.num xs.length),
            ("_first", match xs.head? with | some f => collapseFirst f | none => Value.null),
            ("_note", Value.str (toString xs.length ++ " items (simplified)"))])) ∧
    (((stringifyResults ((resp.results.take MAX_RECORDS_PER_PAGE).map simplifyRecord)).length >
        MAX_RESPONSE_CHARS ∧
      ((resp.results.take MAX_RECORDS_PER_PAGE).map simplifyRecord).length > 10 →
       (simplifyResponse resp).results =
         ((resp.results.take MAX_RECORDS_PER_PAGE).map simplifyRecord).take 10 ∧
       (simplifyResponse resp).note = some ("Response truncated: showing 10 of " ++
         toString resp.count ++ " records. Use filters for specific data.")) ∧
     (¬((stringifyResults ((resp.results.take MAX_RECORDS_PER_PAGE).map simplifyRecord)).length >
          MAX_RESPONSE_CHARS ∧
        ((resp.results.take MAX_RECORDS_PER_PAGE).map simplifyRecord).length > 10) →
       resp.results.length > MAX_RECORDS_PER_PAGE →
       (simplifyResponse resp).results = (resp.results.take MAX_RECORDS_PER_PAGE).map simplifyRecord ∧
       (simplifyResponse resp).note = some ("Response limited: showing " ++
         toString (resp.results.take MAX_RECORDS_PER_PAGE).length ++ " of " ++
         toString resp.count ++ " records. Use pagination or filters.")) ∧
     (¬((stringifyResults ((resp.results.take MAX_RECORDS_PER_PAGE).map simplifyRecord)).length >
          MAX_RESPONSE_CHARS ∧
        ((resp.results.take MAX_RECORDS_PER_PAGE).map simplifyRecord).length > 10) →
       resp.results.length ≤ MAX_RECORDS_PER_PAGE →
       (simplifyResponse resp).results = (resp.results.take MAX_RECORDS_PER_PAGE).map simplifyRecord ∧
       (simplifyResponse resp).note = none)) := by
  constructor
  · intro r i k xs hget hc
    show (simplifyFields r.fields).get? i = _
    rw [simplifyFields_get_eq, hget]
    dsimp only [Option.map]
    rw [hc]
    show some (k, simplifyArrayField xs) = _
    unfold simplifyArrayField
    rfl
  · refine ⟨?_, ?_, ?_⟩
    · intro hbig
      unfold simplifyResponse
      rw [if_pos hbig]
      exact ⟨rfl, rfl⟩
    · intro hnbig hgt
      unfold simplifyResponse
      rw [if_neg hnbig, if_pos ?hlt]
      case hlt =>
        simp only [List.length_take]
        omega
      exact ⟨rfl, rfl⟩
    · intro hnbig hle
      unfold simplifyResponse
      rw [if_neg hnbig, if_neg ?hge]
      case hge =>
        simp only [List.length_take]
        omega
      exact ⟨rfl, rfl⟩

set_option maxRecDepth 100000 in
/-- Witness for C7: a two-entry known-large link field keeps `{id, value}`
entries; a 1-record response gets no note; a 26-record response is cut to
25 with the lighter note. -/
theorem simplifyResponse_spec_witness :
    (simplifyRecord recordLinksW).fields.get? 1 =
      some ("Labels", Value.arr [.obj [("id", .num 11), ("value", .str "L1")],
                                 .obj [("id", .num 12), ("value", .str "L2")]]) ∧
    (simplifyResponse smallListRespW).note = none ∧
    (simplifyResponse longListRespW).results.length = 25 ∧
    (simplifyResponse longListRespW).note =
      some "Response limited: showing 25 of 30 records. Use pagination or filters." := by
  have h1 := (simplifyResponse_spec smallListRespW).1 recordLinksW 1 "Labels"
    [.obj [("id", .num 11), ("value", .str "L1")],
     .obj [("id", .num 12), ("value", .str "L2")]] rfl (by decide)
  have h2 := (simplifyResponse_spec smallListRespW).2.2.2
    (fun h => absurd h.2 (by decide)) (by decide)
  have h3 := (simplifyResponse_spec longListRespW).2.2.1
    (fun h => absurd h.1 (by decide)) (by decide)
  refine ⟨h1, h2.2, ?_, h3.2⟩
  rw [h3.1]
  decide

/-- Claim C6: `search_parts` is deterministic given fixed remote data, and
a term whose lower-cased form exactly equals a key of the built name index
resolves to that index entry — the substring fallback is never consulted,
whatever the other entries are. -/
theorem searchParts_deterministic_exact_priority
    (pages pages2 : Nat → PartsPage) (terms : List String) :
    (pages = pages2 → handleSearchParts pages terms = handleSearchParts pages2 terms) ∧
    (∀ i term e, terms.get? i = some term →
      (buildPartsIndex pages).lookup (jsToLower term) = some e →
      (handleSearchParts pages terms).results.get? i =
        some ⟨e.part_id, e.part_name, term, true⟩) := by
  constructor
  · intro h
    rw [h]
  · intro i term e hterm hlook
    have hone : searchOne (buildPartsIndex pages) term =
        ⟨e.part_id, e.part_name, term, true⟩ := by
      simp only [searchOne, hlook]
    unfold handleSearchParts
    dsimp only
    rw [List.get?_map, hterm]
    dsimp only [Option.map]
    rw [hone]

/-- Witness for C6: with parts `ab` (id 1) and `abc` (id 2), the term
`abc` exactly matches entry 2 even though entry 1 substring-matches it and
comes first in the index. -/
theorem searchParts_deterministic_exact_priority_witness :
    buildPartsIndex partsPagesW = [("ab", ⟨1, "ab"⟩), ("abc", ⟨2, "abc"⟩)] ∧
    jsIncludes "abc" "ab" = true ∧
    (handleSearchParts partsPagesW ["abc"]).results.get? 0 =
      some ⟨2, "abc", "abc", true⟩ := by
  refine ⟨by decide, by decide, ?_⟩
  exact (searchParts_deterministic_exact_priority partsPagesW partsPagesW ["abc"]).2
    0 "abc" ⟨2, "abc"⟩ rfl (by decide)

/-- Lower-casing a non-empty string yields a non-empty string. -/
theorem jsToLower_ne_empty (s : String) (h : s ≠ "") : jsToLower s ≠ "" := by
  unfold jsToLower
  obtain ⟨data⟩ := s
  cases data with
  | nil => exact absurd rfl h
  | cons c cs =>
    intro hcon
    have hd := congrArg String.data hcon
    simp at hd

/-- `jsMapSet` preserves the all-keys-non-empty invariant. -/
theorem jsMapSet_keys_ne_empty {β : Type} (m : List (String × β)) (k : String) (v : β)
    (hm : ∀ kv ∈ m, kv.1 ≠ "") (hk : k ≠ "") :
    ∀ kv ∈ jsMapSet m k v, kv.1 ≠ "" := by
  induction m with
  | nil =>
    intro kv hkv
    simp only [jsMapSet, List.mem_singleton] at hkv
    rw [hkv]
    exact hk
  | cons hd tl ih =>
    intro kv hkv
    unfold jsMapSet at hkv
    by_cases hbeq : hd.1 == k
    · rw [if_pos hbeq] at hkv
      rcases List.mem_cons.mp hkv with h1 | h1
      · rw [h1]
        exact hm hd (List.mem_cons_self hd tl)
      · exact hm kv (List.mem_cons_of_mem hd h1)
    · rw [if_neg hbeq] at hkv
      rcases List.mem_cons.mp hkv with h1 | h1
      · rw [h1]
        exact hm hd (List.mem_cons_self hd tl)
      · exact ih (fun x hx => hm x (List.mem_cons_of_mem hd hx)) kv h1

/-- `addPart` preserves the all-keys-non-empty invariant. -/
theorem addPart_keys_ne_empty (idx : List (String × PartEntry)) (p : PartRec)
    (h : ∀ kv ∈ idx, kv.1 ≠ "") : ∀ kv ∈ addPart idx p, kv.1 ≠ "" := by
  unfold addPart
  by_cases hname : partPrimaryName p ≠ ""
  · rw [if_pos hname]
    exact jsMapSet_keys_ne_empty idx _ _ h (jsToLower_ne_empty _ hname)
  · rw [if_neg hname]
    exact h

/-- The fold over one page's results preserves the invariant. -/
theorem foldl_addPart_keys_ne_empty (ps : List PartRec) :
    ∀ idx, (∀ kv ∈ idx, kv.1 ≠ "") → ∀ kv ∈ ps.foldl addPart idx, kv.1 ≠ "" := by
  induction ps with
  | nil => intro idx h; exact h
  | cons p rest ih =>
    intro idx h
    exact ih (addPart idx p) (addPart_keys_ne_empty idx p h)

/-- The paging loop preserves the invariant. -/
theorem loadPartsLoop_keys_ne_empty (pages : Nat → PartsPage) :
    ∀ fuel page idx, (∀ kv ∈ idx, kv.1 ≠ "") →
      ∀ kv ∈ loadPartsLoop pages fuel page idx, kv.1 ≠ "" := by
  intro fuel
  induction fuel with
  | zero => intro page idx h; exact h
  | succ n ih =>
    intro page idx h
    unfold loadPartsLoop
    dsimp only
    split
    · exact ih (page + 1) _ (foldl_addPart_keys_ne_empty _ idx h)
    · exact foldl_addPart_keys_ne_empty _ idx h

/-- Every key of the built parts index is a non-empty (lower-cased) name. -/
theorem buildPartsIndex_keys_ne_empty (pages : Nat → PartsPage) :
    ∀ kv ∈ buildPartsIndex pages, kv.1 ≠ "" :=
  loadPartsLoop_keys_ne_empty pages 50 1 [] (by intro kv hkv; cases hkv)

/-- A map all of whose keys are non-empty has no entry under `""`. -/
theorem lookup_empty_of_keys_ne_empty {β : Type} (m : List (String × β))
    (h : ∀ kv ∈ m, kv.1 ≠ "") : m.lookup "" = none := by
  induction m with
  | nil => rfl
  | cons hd tl ih =>
    obtain ⟨k, v⟩ := hd
    have hk : k ≠ "" := h (k, v) (List.mem_cons_self _ _)
    have hbeq : ("" == k) = false := beq_eq_false_iff_ne.mpr (fun he => hk he.symm)
    simp only [List.lookup, hbeq]
    exact ih (fun x hx => h x (List.mem_cons_of_mem _ hx))

/-- The empty pattern is a sublist of every character list. -/
theorem listContainsSub_nil (l : List Char) : listContainsSub [] l = true := by
  cases l <;> simp [listContainsSub, List.isPrefixOf]

/-- Claim C9: when the built name index is non-empty, the empty search term
is always found, matched to the first entry in insertion order: the empty
string is never an index key, so the exact lookup misses, and the substring
fallback matches the first entry because every name contains `""`. -/
theorem searchParts_empty_term_first_entry
    (pages : Nat → PartsPage) (k : String) (e : PartEntry)
    (rest : List (String × PartEntry))
    (hidx : buildPartsIndex pages = (k, e) :: rest) :
    (buildPartsIndex pages).lookup "" = none ∧
    searchOne (buildPartsIndex pages) "" = ⟨e.part_id, e.part_name, "", true⟩ ∧
    ∀ terms i, terms.get? i = some "" →
      (handleSearchParts pages terms).results.get? i =
        some ⟨e.part_id, e.part_name, "", true⟩ := by
  have hkeys := buildPartsIndex_keys_ne_empty pages
  have hlook : (buildPartsIndex pages).lookup "" = none :=
    lookup_empty_of_keys_ne_empty _ hkeys
  have hlow : jsToLower "" = "" := rfl
  have hfind : (buildPartsIndex pages).find?
      (fun kv => jsIncludes kv.1 "" || jsIncludes "" kv.1) = some (k, e) := by
    rw [hidx]
    apply List.find?_cons_of_pos
    have : jsIncludes k "" = true := by
      unfold jsIncludes
      exact listContainsSub_nil k.data
    rw [this, Bool.true_or]
  have hone : searchOne (buildPartsIndex pages) "" =
      ⟨e.part_id, e.part_name, "", true⟩ := by
    simp only [searchOne, hlow, hlook, hfind, Option.map]
  refine ⟨hlook, hone, ?_⟩
  intro terms i hterm
  unfold handleSearchParts
  dsimp only
  rw [List.get?_map, hterm]
  dsimp only [Option.map]
  rw [hone]

/-- Witness for C9: with the two-part index, searching the empty term
returns the first-inserted entry `ab` (id 1). -/
theorem searchParts_empty_term_first_entry_witness :
    (buildPartsIndex partsPagesW).lookup "" = none ∧
    (handleSearchParts partsPagesW [""]).results.get? 0 = some ⟨1, "ab", "", true⟩ := by
  have h := searchParts_empty_term_first_entry partsPagesW "ab" ⟨1, "ab"⟩
    [("abc", ⟨2, "abc"⟩)] (by decide)
  exact ⟨h.1, h.2.2 [""] 0 rfl⟩

/-- The items retained by the scan do not depend on the iSKU accumulator
and equal the retain-and-project filter over the fetched mappings. -/
theorem bomScan_fst_eq (fgId : Int) (ms : List MappingRecord) :
    ∀ isku, (bomScan fgId ms isku).1 = ms.filterMap (retainProjectBOM fgId) := by
  induction ms with
  | nil => intro isku; rfl
  | cons m rest ih =>
    intro isku
    rw [List.filterMap_cons]
    show (bomScan fgId (m :: rest) isku).1 = _
    unfold bomScan
    cases hfg : m.finishedGood with
    | none =>
      have hnone : retainProjectBOM fgId m = none := by
        unfold retainProjectBOM
        rw [hfg]
      rw [hnone]
      exact ih isku
    | some fg =>
      dsimp only
      by_cases hc : (decide (fg.length > 0) &&
          (match fg.head? with | some f => decide (f.id = fgId) | none => false)) = true
      · rw [if_pos hc]
        have hretain : retainProjectBOM fgId m =
            (match m.part with
             | some part => if part.length > 0 then some (projectBOMItem m part) else none
             | none => none) := by
          unfold retainProjectBOM
          rw [hfg]
          dsimp only
          rw [if_pos hc]
        rw [hretain]
        cases hp : m.part with
        | none =>
          dsimp only
          exact ih _
        | some part =>
          dsimp only
          by_cases hlen : part.length > 0
          · rw [if_pos hlen, if_pos hlen]
            dsimp only
            rw [ih _]
            rfl
          · rw [if_neg hlen, if_neg hlen]
            dsimp only
            exact ih _
      · rw [if_neg hc]
        have hnone : retainProjectBOM fgId m = none := by
          unfold retainProjectBOM
          rw [hfg]
          dsimp only
          rw [if_neg hc]
        rw [hnone]
        exact ih _

/-- Claim C5: with the same remote data, `get_bom` invoked by `fg_id` and
invoked by an iSKU that resolves to the same finished good return identical
parts lists: the mappings whose `Finished Good` link's first entry has the
target id and whose `Part` link is non-empty, projected to
`{mapping_id, part_id, part_name, quantity_per_unit, part_role}`. -/
theorem getBOM_by_id_and_isku_agree
    (st : GetBOMStore) (X : Int) (Y : String)
    (hX : X ≠ 0) (hY : Y ≠ "")
    (hres : (st.fgByIsku Y).head? = some ⟨X⟩) :
    ∃ parts isku1 isku2,
      handleGetBOM st (some X) none = .ok ⟨X, isku1, parts, parts.length⟩ ∧
      handleGetBOM st none (some Y) = .ok ⟨X, isku2, parts, parts.length⟩ ∧
      parts = st.mappings.filterMap (retainProjectBOM X) := by
  have h1 : handleGetBOM st (some X) none =
      .ok ⟨X, (bomScan X st.mappings "").2, (bomScan X st.mappings "").1,
           (bomScan X st.mappings "").1.length⟩ := by
    unfold handleGetBOM
    simp [jsFalsyIntOpt, optStrTruthy, hX, jsOrStr]
  have h2 : handleGetBOM st none (some Y) =
      .ok ⟨X, (bomScan X st.mappings Y).2, (bomScan X st.mappings Y).1,
           (bomScan X st.mappings Y).1.length⟩ := by
    unfold handleGetBOM
    simp [jsFalsyIntOpt, optStrTruthy, hX, hY, hres]
  refine ⟨st.mappings.filterMap (retainProjectBOM X),
    (bomScan X st.mappings "").2, (bomScan X st.mappings Y).2, ?_, ?_, rfl⟩
  · rw [h1, bomScan_fst_eq]
  · rw [h2, bomScan_fst_eq]

/-- Witness for C5: in `getBOMStoreW`, FG 42 reached by id and by iSKU
`SKU-1` yields the same single-part list, with the part-less mapping 202
silently skipped. -/
theorem getBOM_by_id_and_isku_agree_witness :
    (∃ parts isku1 isku2,
      handleGetBOM getBOMStoreW (some 42) none = .ok ⟨42, isku1, parts, parts.length⟩ ∧
      handleGetBOM getBOMStoreW none (some "SKU-1") = .ok ⟨42, isku2, parts, parts.length⟩ ∧
      parts = getBOMStoreW.mappings.filterMap (retainProjectBOM 42)) ∧
    getBOMStoreW.mappings.filterMap (retainProjectBOM 42) =
      [⟨201, 501, "RM-X", jsParseFloat "1.5", "Component"⟩] := by
  refine ⟨getBOM_by_id_and_isku_agree getBOMStoreW 42 "SKU-1"
    (by decide) (by decide) rfl, ?_⟩
  rfl

/-- Claim C2 (code bug): on a request whose second item references the
absent BOM mapping id 999, the handler implementation (handler.ts) fails
with `BOM_NOT_FOUND` listing 999 and issues no create and no update call,
but the Worker implementation (worker.ts, `if (!bomInfo) continue`)
silently skips the unresolved item, creates one partial usage record,
still updates the Manufacturing Order, and reports success. -/
theorem processBPR_unresolved_bom_divergence :
    (handleProcessBPR bprStoreW bprArgsMissing).1 =
      .err "BOM_NOT_FOUND" "BOM mapping IDs not found: 999" ∧
    ((handleProcessBPR bprStoreW bprArgsMissing).2.filter isCreateCall) = [] ∧
    ((handleProcessBPR bprStoreW bprArgsMissing).2.filter isUpdateCall) = [] ∧
    (workerProcessBPR bprStoreW bprArgsMissing).1 =
      .ok ⟨77, "MO-1", 1, [3001], true,
        "BPR processed: MO MO-1 closed with 1 parts usage records"⟩ ∧
    ((workerProcessBPR bprStoreW bprArgsMissing).2.filter isCreateCall).length = 1 ∧
    ((workerProcessBPR bprStoreW bprArgsMissing).2.filter isUpdateCall) =
      [SCall.update "manufacturing_orders" 77 (moUpdateData "2025-01-01" "100")] := by
  refine ⟨?_, ?_, ?_, ?_, ?_, ?_⟩ <;> rfl

/-- When every creation succeeds, the creation loop issues exactly one
create call per item, in input order, and returns one created id per
item. -/
theorem createLoop_all_ok (store : BPRStore) (moNumber : String)
    (enteredBy : Option String) (moId : Int) (bomLookup : List (Int × BomInfo))
    (lotLookup labelLookup : List (String × Int)) :
    ∀ (items : List PartsUsageItem) (callIdx : Nat),
      (∀ i, i < items.length → store.createResult (callIdx + i) ≠ none) →
      ∃ ids, createLoop store moNumber enteredBy moId bomLookup lotLookup labelLookup
          callIdx items =
        (some ids, items.map (fun p => SCall.create "mo_parts_usage"
          (usageDataFor moNumber enteredBy moId
            ((bomLookup.lookup p.bom_id).getD ⟨0, 0, "Unknown"⟩) lotLookup labelLookup p))) ∧
        ids.length = items.length := by
  intro items
  induction items with
  | nil => intro callIdx h; exact ⟨[], rfl, rfl⟩
  | cons p rest ih =>
    intro callIdx h
    have h0 : store.createResult (callIdx + 0) ≠ none := h 0 (Nat.succ_pos _)
    rw [Nat.add_zero] at h0
    obtain ⟨rid, hrid⟩ := Option.ne_none_iff_exists'.mp h0
    obtain ⟨ids, hloop, hlen⟩ := ih (callIdx + 1) (fun i hi => by
      have hh := h (i + 1) (Nat.succ_lt_succ hi)
      rwa [show callIdx + (i + 1) = callIdx + 1 + i by omega] at hh)
    refine ⟨rid :: ids, ?_, by simpa using hlen⟩
    unfold createLoop
    rw [hrid]
    dsimp only
    rw [hloop]
    rfl

/-- The pre-creation reads contain no create call. -/
theorem bprPreTrace_filter_create (a : BPRArgs) :
    (bprPreTrace a).filter isCreateCall = [] := by
  unfold bprPreTrace
  split <;> split <;> rfl

/-- The pre-creation reads contain no update call. -/
theorem bprPreTrace_filter_update (a : BPRArgs) :
    (bprPreTrace a).filter isUpdateCall = [] := by
  unfold bprPreTrace
  split <;> split <;> rfl

/-- Filtering the create calls out of a list of create calls is the
identity. -/
theorem filter_create_map_create (l : List PartsUsageItem)
    (f : PartsUsageItem → List (String × FieldVal)) :
    (l.map (fun p => SCall.create "mo_parts_usage" (f p))).filter isCreateCall =
      l.map (fun p => SCall.create "mo_parts_usage" (f p)) := by
  induction l with
  | nil => rfl
  | cons p rest ih => simp [isCreateCall, ih]

/-- A list of create calls contains no update call. -/
theorem filter_update_map_create (l : List PartsUsageItem)
    (f : PartsUsageItem → List (String × FieldVal)) :
    (l.map (fun p => SCall.create "mo_parts_usage" (f p))).filter isUpdateCall = [] := by
  induction l with
  | nil => rfl
  | cons p rest ih => simp [isUpdateCall, ih]

/-- Every usage payload starts with the Manufacturing Order link. -/
theorem usageDataFor_mo_lookup (moNumber : String) (enteredBy : Option String)
    (moId : Int) (bomInfo : BomInfo) (lotLookup labelLookup : List (String × Int))
    (p : PartsUsageItem) :
    (usageDataFor moNumber enteredBy moId bomInfo lotLookup labelLookup p).lookup
      "Manufacturing Order" = some (FieldVal.links [moId]) := rfl

/-- Claim C3: a fully successful `process_bpr` run with n items creates
exactly n parts-usage records, one per input item in input order, each
linking the same resolved MO, and issues exactly one MO update call with
`MO Status` 4554566, `Deduction Method` 4669016, and both completion flags
true. -/
theorem processBPR_success (store : BPRStore) (a : BPRArgs) (mo : MORec)
    (hmo : (store.moByNumber a.mo_number).head? = some mo)
    (hmiss : (a.parts_usage.map (fun p => p.bom_id)).filter
        (fun i => ((bprBomLookup store a).lookup i).isNone) = [])
    (hcr : ∀ i, i < a.parts_usage.length → store.createResult i ≠ none)
    (hupd : store.updateOk = true) :
    ∃ ids,
      (handleProcessBPR store a).1 = .ok ⟨true, mo.id, a.mo_number, ids.length, ids, true,
        "BPR processed: MO " ++ a.mo_number ++ " closed with " ++ toString ids.length ++
        " parts usage records. Gross produced: " ++ a.gross_produced⟩ ∧
      ids.length = a.parts_usage.length ∧
      ((handleProcessBPR store a).2.filter isCreateCall) =
        a.parts_usage.map (fun p => SCall.create "mo_parts_usage" (bprCreateData store a mo.id p)) ∧
      (∀ c ∈ (handleProcessBPR store a).2, isCreateCall c = true →
        ∃ d, c = SCall.create "mo_parts_usage" d ∧
          d.lookup "Manufacturing Order" = some (FieldVal.links [mo.id])) ∧
      ((handleProcessBPR store a).2.filter isUpdateCall) =
        [SCall.update "manufacturing_orders" mo.id
          (moUpdateData a.completion_date a.gross_produced)] ∧
      (moUpdateData a.completion_date a.gross_produced).lookup "MO Status" =
        some (.num (4554566 : ℚ)) ∧
      (moUpdateData a.completion_date a.gross_produced).lookup "Deduction Method" =
        some (.num (4669016 : ℚ)) ∧
      (moUpdateData a.completion_date a.gross_produced).lookup "Actual Usage Complete" =
        some (.bool true) ∧
      (moUpdateData a.completion_date a.gross_produced).lookup "MO Inventory Processed" =
        some (.bool true) := by
  obtain ⟨ids, hloop, hlen⟩ := createLoop_all_ok store a.mo_number a.entered_by mo.id
    (bprBomLookup store a) (bprLotLookup store a) (bprLabelLookup store a)
    a.parts_usage 0 (fun i hi => by simpa using hcr i hi)
  have hmap : (fun p => SCall.create "mo_parts_usage"
      (usageDataFor a.mo_number a.entered_by mo.id
        (((bprBomLookup store a).lookup p.bom_id).getD ⟨0, 0, "Unknown"⟩)
        (bprLotLookup store a) (bprLabelLookup store a) p)) =
      (fun p => SCall.create "mo_parts_usage" (bprCreateData store a mo.id p)) := rfl
  rw [hmap] at hloop
  have heq : handleProcessBPR store a =
      (.ok ⟨true, mo.id, a.mo_number, ids.length, ids, true,
        "BPR processed: MO " ++ a.mo_number ++ " closed with " ++ toString ids.length ++
        " parts usage records. Gross produced: " ++ a.gross_produced⟩,
       bprPreTrace a ++
         a.parts_usage.map (fun p => SCall.create "mo_parts_usage" (bprCreateData store a mo.id p)) ++
         [SCall.update "manufacturing_orders" mo.id
           (moUpdateData a.completion_date a.gross_produced)]) := by
    unfold handleProcessBPR
    rw [hmo]
    dsimp only
    rw [if_neg (fun hne => hne hmiss)]
    rw [hloop]
    dsimp only
    rw [hupd]
    rfl
  have hfilterC : (handleProcessBPR store a).2.filter isCreateCall =
      a.parts_usage.map (fun p => SCall.create "mo_parts_usage" (bprCreateData store a mo.id p)) := by
    rw [heq]
    dsimp only
    rw [List.filter_append, List.filter_append, bprPreTrace_filter_create,
      filter_create_map_create]
    simp [isCreateCall]
  refine ⟨ids, ?_, hlen, hfilterC, ?_, ?_, rfl, rfl, rfl, rfl⟩
  · rw [heq]
  · intro c hmem hc
    have hcf : c ∈ (handleProcessBPR store a).2.filter isCreateCall :=
      List.mem_filter.mpr ⟨hmem, hc⟩
    rw [hfilterC] at hcf
    obtain ⟨p, hp, hcp⟩ := List.mem_map.mp hcf
    exact ⟨bprCreateData store a mo.id p, hcp.symm,
      usageDataFor_mo_lookup a.mo_number a.entered_by mo.id
        (((bprBomLookup store a).lookup p.bom_id).getD ⟨0, 0, "Unknown"⟩)
        (bprLotLookup store a) (bprLabelLookup store a) p⟩
  · rw [heq]
    dsimp only
    rw [List.filter_append, List.filter_append, bprPreTrace_filter_update,
      filter_update_map_create]
    simp [isUpdateCall]

/-- Witness for C3 at a concrete two-item request (one item resolving a
lot number, one carrying waste): both hypotheses hold and the conclusions
follow by applying the theorem. -/
theorem processBPR_success_witness :
    ∃ ids,
      (handleProcessBPR bprStoreW bprArgsOk).1 = .ok ⟨true, 77, "MO-1", ids.length, ids, true,
        "BPR processed: MO " ++ "MO-1" ++ " closed with " ++ toString ids.length ++
        " parts usage records. Gross produced: " ++ "858"⟩ ∧
      ids.length = 2 ∧
      ((handleProcessBPR bprStoreW bprArgsOk).2.filter isCreateCall) =
        bprArgsOk.parts_usage.map
          (fun p => SCall.create "mo_parts_usage" (bprCreateData bprStoreW bprArgsOk 77 p)) ∧
      (∀ c ∈ (handleProcessBPR bprStoreW bprArgsOk).2, isCreateCall c = true →
        ∃ d, c = SCall.create "mo_parts_usage" d ∧
          d.lookup "Manufacturing Order" = some (FieldVal.links [77])) ∧
      ((handleProcessBPR bprStoreW bprArgsOk).2.filter isUpdateCall) =
        [SCall.update "manufacturing_orders" 77 (moUpdateData "2025-01-02" "858")] ∧
      (moUpdateData "2025-01-02" "858").lookup "MO Status" = some (.num (4554566 : ℚ)) ∧
      (moUpdateData "2025-01-02" "858").lookup "Deduction Method" =
        some (.num (4669016 : ℚ)) ∧
      (moUpdateData "2025-01-02" "858").lookup "Actual Usage Complete" =
        some (.bool true) ∧
      (moUpdateData "2025-01-02" "858").lookup "MO Inventory Processed" =
        some (.bool true) :=
  processBPR_success bprStoreW bprArgsOk ⟨77⟩ rfl rfl
    (fun _ _ hc => Option.noConfusion hc) rfl

/-- String boolean equality is symmetric. -/
theorem strBeq_comm (a b : String) : (a == b) = (b == a) := by
  by_cases h : a = b
  · subst h
    rfl
  · rw [beq_eq_false_iff_ne.mpr h, beq_eq_false_iff_ne.mpr (Ne.symm h)]

/-- Lookup in a map after `jsMapSet`: present iff present before or equal
to the inserted key. -/
theorem jsMapSet_lookup_isSome {β : Type} (m : List (String × β)) (k k' : String) (v : β) :
    ((jsMapSet m k v).lookup k').isSome = ((m.lookup k').isSome || (k' == k)) := by
  induction m with
  | nil =>
    show ([(k, v)].lookup k').isSome = _
    cases hk : (k' == k) <;> simp [List.lookup, hk]
  | cons hd tl ih =>
    obtain ⟨k₀, v₀⟩ := hd
    unfold jsMapSet
    cases hbeq : (k₀ == k) with
    | true =>
      have hkk : k₀ = k := eq_of_beq hbeq
      subst hkk
      cases hk' : (k' == k₀) <;> simp [List.lookup, hk']
    | false =>
      cases hk' : (k' == k₀) <;> simp [List.lookup, hk', ih]

/-- `jsMapSet` never yields an empty map. -/
theorem jsMapSet_isEmpty {β : Type} (m : List (String × β)) (k : String) (v : β) :
    (jsMapSet m k v).isEmpty = false := by
  cases m with
  | nil => rfl
  | cons hd tl =>
    obtain ⟨k₀, v₀⟩ := hd
    unfold jsMapSet
    cases hbeq : (k₀ == k) <;> simp

/-- A registration pass over configs with no malformed entry: the loop
succeeds, appends one warning per missing (absent/empty) entry, and
registers exactly the well-configured ones. -/
theorem registerLoop_no_bad (env : String → Option String) :
    ∀ (cfgs : List TableConfig) (map : List (String × TableInfo)) (missing : List String),
      cfgs.all (fun c => !envEntryBad env c) = true →
      ∃ map2, registerLoop env cfgs map missing =
          .ok (map2, missing ++ (cfgs.filter (envEntryMissing env)).map
            (fun c => c.name ++ " (" ++ c.envKey ++ ")")) ∧
        (∀ name, (map2.lookup name).isSome =
          ((map.lookup name).isSome ||
            cfgs.any (fun c => c.name == name && envEntryGood env c))) ∧
        map2.isEmpty = (map.isEmpty && cfgs.all (fun c => !envEntryGood env c)) := by
  intro cfgs
  induction cfgs with
  | nil =>
    intro map missing _
    exact ⟨map, by simp [registerLoop], fun name => by simp, by simp⟩
  | cons c rest ih =>
    intro map missing hnb
    rw [List.all_cons, Bool.and_eq_true] at hnb
    obtain ⟨hcgood, hrest⟩ := hnb
    cases henv : env c.envKey with
    | none =>
      have hmiss : envEntryMissing env c = true := by simp [envEntryMissing, henv]
      have hgood : envEntryGood env c = false := by simp [envEntryGood, henv]
      obtain ⟨map2, hrl, hlook, hemp⟩ :=
        ih map (missing ++ [c.name ++ " (" ++ c.envKey ++ ")"]) hrest
      refine ⟨map2, ?_, ?_, ?_⟩
      · unfold registerLoop
        rw [henv, hrl, List.filter_cons_of_pos hmiss]
        simp
      · intro name
        rw [hlook name, List.any_cons]
        simp [hgood]
      · rw [hemp, List.all_cons]
        simp [hgood]
    | some s =>
      by_cases hs : s = ""
      · subst hs
        have hmiss : envEntryMissing env c = true := by simp [envEntryMissing, henv]
        have hgood : envEntryGood env c = false := by simp [envEntryGood, henv]
        obtain ⟨map2, hrl, hlook, hemp⟩ :=
          ih map (missing ++ [c.name ++ " (" ++ c.envKey ++ ")"]) hrest
        refine ⟨map2, ?_, ?_, ?_⟩
        · unfold registerLoop
          rw [henv]
          dsimp only
          rw [if_pos rfl, hrl, List.filter_cons_of_pos hmiss]
          simp
        · intro name
          rw [hlook name, List.any_cons]
          simp [hgood]
        · rw [hemp, List.all_cons]
          simp [hgood]
      · cases hparse : jsParseInt s with
        | none =>
          exfalso
          simp [envEntryBad, henv, hs, hparse] at hcgood
        | some i =>
          by_cases hle : i ≤ 0
          · exfalso
            simp [envEntryBad, henv, hs, hparse] at hcgood
            omega
          · have hgood : envEntryGood env c = true := by
              simp [envEntryGood, henv, hs, hparse]
              omega
            have hmiss : envEntryMissing env c = false := by
              simp [envEntryMissing, henv, hs]
            obtain ⟨map2, hrl, hlook, hemp⟩ :=
              ih (jsMapSet map c.name ⟨c.name, i, c.description⟩) missing hrest
            refine ⟨map2, ?_, ?_, ?_⟩
            · unfold registerLoop
              rw [henv]
              dsimp only
              rw [if_neg hs, hparse]
              dsimp only
              rw [if_neg hle, hrl, List.filter_cons_of_neg (by simp [hmiss])]
            · intro name
              rw [hlook name, jsMapSet_lookup_isSome, List.any_cons, hgood,
                strBeq_comm name c.name]
              simp [Bool.or_assoc]
            · rw [hemp, jsMapSet_isEmpty, List.all_cons, hgood]
              simp

/-- A malformed configured entry makes the registration loop throw. -/
theorem registerLoop_bad_error (env : String → Option String) :
    ∀ (cfgs : List TableConfig) (map : List (String × TableInfo)) (missing : List String),
      cfgs.all (fun c => !envEntryBad env c) = false →
      ∃ e, registerLoop env cfgs map missing = .error e := by
  intro cfgs
  induction cfgs with
  | nil =>
    intro map missing h
    simp at h
  | cons c rest ih =>
    intro map missing h
    rw [List.all_cons] at h
    cases henv : env c.envKey with
    | none =>
      have hrest : rest.all (fun c => !envEntryBad env c) = false := by
        have hhead : envEntryBad env c = false := by simp [envEntryBad, henv]
        rwa [hhead, Bool.not_false, Bool.true_and] at h
      obtain ⟨e, he⟩ := ih map (missing ++ [c.name ++ " (" ++ c.envKey ++ ")"]) hrest
      refine ⟨e, ?_⟩
      unfold registerLoop
      rw [henv]
      exact he
    | some s =>
      by_cases hs : s = ""
      · subst hs
        have hrest : rest.all (fun c => !envEntryBad env c) = false := by
          have hhead : envEntryBad env c = false := by simp [envEntryBad, henv]
          rwa [hhead, Bool.not_false, Bool.true_and] at h
        obtain ⟨e, he⟩ := ih map (missing ++ [c.name ++ " (" ++ c.envKey ++ ")"]) hrest
        refine ⟨e, ?_⟩
        unfold registerLoop
        rw [henv]
        dsimp only
        rw [if_pos rfl]
        exact he
      · cases hparse : jsParseInt s with
        | none =>
          refine ⟨"Invalid table ID for " ++ c.name ++ ": " ++ s ++
            " - must be a positive integer", ?_⟩
          unfold registerLoop
          rw [henv]
          dsimp only
          rw [if_neg hs, hparse]
        | some i =>
          by_cases hle : i ≤ 0
          · refine ⟨"Invalid table ID for " ++ c.name ++ ": " ++ s ++
              " - must be a positive integer", ?_⟩
            unfold registerLoop
            rw [henv]
            dsimp only
            rw [if_neg hs, hparse]
            dsimp only
            rw [if_pos hle]
          · have hrest : rest.all (fun c => !envEntryBad env c) = false := by
              have hhead : envEntryBad env c = false := by
                simp [envEntryBad, henv, hs, hparse]
                omega
              rwa [hhead, Bool.not_false, Bool.true_and] at h
            obtain ⟨e, he⟩ := ih (jsMapSet map c.name ⟨c.name, i, c.description⟩) missing hrest
            refine ⟨e, ?_⟩
            unfold registerLoop
            rw [henv]
            dsimp only
            rw [if_neg hs, hparse]
            dsimp only
            rw [if_neg hle]
            exact he

/-- Claim C8 (amended): allow-list initialization fails iff some configured
identifier is present (non-empty) but its `parseInt` value is `NaN` or
non-positive, or no table resolved at all; when it completes, exactly the
tables whose identifiers parsed to a positive integer are reachable, and a
missing-table warning is logged iff some table was unconfigured (absent or
empty identifier). -/
theorem allowList_init_spec (env : String → Option String) :
    ((initAllowList env).isOk = false ↔
      (TABLE_CONFIGS.any (envEntryBad env) = true ∨
       TABLE_CONFIGS.all (fun c => !envEntryGood env c) = true)) ∧
    ∀ st warned, initAllowList env = .ok (st, warned) →
      (∀ name, isTableAllowed st name =
        (ALLOWED_TABLE_NAMES.contains name &&
         TABLE_CONFIGS.any (fun c => c.name == name && envEntryGood env c))) ∧
      warned = (TABLE_CONFIGS.filter (envEntryMissing env)).map
        (fun c => c.name ++ " (" ++ c.envKey ++ ")") ∧
      (warned ≠ [] ↔ ∃ c ∈ TABLE_CONFIGS, envEntryMissing env c = true) := by
  by_cases hall : TABLE_CONFIGS.all (fun c => !envEntryBad env c) = true
  · obtain ⟨map2, hrl, hlook, hemp⟩ := registerLoop_no_bad env TABLE_CONFIGS [] [] hall
    have hany : TABLE_CONFIGS.any (envEntryBad env) = false := by
      rw [List.any_eq_false]
      intro c hc
      have := List.all_eq_true.mp hall c hc
      simp at this
      simp [this]
    have hinit : initAllowList env =
        (if map2.isEmpty then
          (.error "No tables configured. Please set at least one TABLE_ID_* environment variable.")
        else .ok (⟨map2⟩, [] ++ (TABLE_CONFIGS.filter (envEntryMissing env)).map
          (fun c => c.name ++ " (" ++ c.envKey ++ ")"))) := by
      unfold initAllowList
      rw [hrl]
    rw [List.isEmpty_nil, Bool.true_and] at hemp
    by_cases hemp2 : map2.isEmpty = true
    · refine ⟨?_, ?_⟩
      · rw [hinit, if_pos hemp2]
        constructor
        · intro _
          right
          rw [← hemp]
          exact hemp2
        · intro _
          rfl
      · intro st warned h
        rw [hinit, if_pos hemp2] at h
        exact Except.noConfusion h
    · refine ⟨?_, ?_⟩
      · rw [hinit, if_neg hemp2]
        constructor
        · intro habs
          exact Bool.noConfusion habs
        · intro hor
          rcases hor with hbad | hng
          · rw [hany] at hbad
            exact absurd hbad (by simp)
          · rw [hng] at hemp
            exact absurd hemp hemp2
      · intro st warned h
        rw [hinit, if_neg hemp2] at h
        injection h with hpair
        have hst : (⟨map2⟩ : AllowListState) = st := congrArg Prod.fst hpair
        have hwar : [] ++ (TABLE_CONFIGS.filter (envEntryMissing env)).map
            (fun c => c.name ++ " (" ++ c.envKey ++ ")") = warned := congrArg Prod.snd hpair
        rw [List.nil_append] at hwar
        subst hst
        refine ⟨?_, hwar.symm, ?_⟩
        · intro name
          unfold isTableAllowed
          show (_ && (map2.lookup name).isSome) = _
          rw [hlook name]
          simp
        · rw [← hwar]
          constructor
          · intro hne
            by_contra hnex
            push_neg at hnex
            apply hne
            have hfil : TABLE_CONFIGS.filter (envEntryMissing env) = [] := by
              rw [List.filter_eq_nil]
              intro a ha
              simp [hnex a ha]
            rw [hfil]
            rfl
          · rintro ⟨c, hc, hcm⟩ hnil
            rw [List.map_eq_nil] at hnil
            have : c ∈ TABLE_CONFIGS.filter (envEntryMissing env) :=
              List.mem_filter.mpr ⟨hc, hcm⟩
            rw [hnil] at this
            cases this
  · have hall' : TABLE_CONFIGS.all (fun c => !envEntryBad env c) = false :=
      eq_false_of_ne_true hall
    obtain ⟨e, he⟩ := registerLoop_bad_error env TABLE_CONFIGS [] [] hall'
    have hinit : initAllowList env = .error e := by
      unfold initAllowList
      rw [he]
    refine ⟨?_, ?_⟩
    · rw [hinit]
      constructor
      · intro _
        left
        rw [List.any_eq_true]
        obtain ⟨c, hc, hcb⟩ := List.all_eq_false.mp hall'
        refine ⟨c, hc, ?_⟩
        simpa using hcb
      · intro _
        rfl
    · intro st warned h
      rw [hinit] at h
      exact Except.noConfusion h

/-- Counterexample to claim C8 as stated: the configured identifier
`"12abc"` is present and is not a positive integer, yet initialization
succeeds — JS `parseInt` accepts the numeric prefix and registers
`manufacturing_orders` with id 12 — so "fails iff some configured
identifier is present but not a positive integer, or zero tables resolved"
is false for this environment. -/
theorem allowList_init_claim_counterexample :
    ¬(((initAllowList envParseIntPrefix).isOk = false) ↔
      ((∃ c ∈ TABLE_CONFIGS, ∃ s, envParseIntPrefix c.envKey = some s ∧
          specPositiveIntString s = false) ∨
       (∀ c ∈ TABLE_CONFIGS, envParseIntPrefix c.envKey = none ∨
          envParseIntPrefix c.envKey = some ""))) ∧
    envParseIntPrefix "TABLE_ID_MANUFACTURING_ORDERS" = some "12abc" ∧
    specPositiveIntString "12abc" = false ∧
    ∃ st warned, initAllowList envParseIntPrefix = .ok (st, warned) ∧
      isTableAllowed st "manufacturing_orders" = true ∧
      st.tableMap.lookup "manufacturing_orders" =
        some ⟨"manufacturing_orders", 12,
          "Manufacturing Orders (MO) for tracking production lifecycle"⟩ := by
  refine ⟨?_, rfl, by decide, ?_⟩
  · intro hiff
    have hbad : (∃ c ∈ TABLE_CONFIGS, ∃ s, envParseIntPrefix c.envKey = some s ∧
        specPositiveIntString s = false) := by
      refine ⟨⟨"manufacturing_orders", "TABLE_ID_MANUFACTURING_ORDERS",
        "Manufacturing Orders (MO) for tracking production lifecycle"⟩,
        by decide, "12abc", rfl, by decide⟩
    have := hiff.mpr (Or.inl hbad)
    exact absurd this (by decide)
  · exact ⟨_, _, rfl, by decide, by decide⟩

/-- Witness for the amended C8: with only `TABLE_ID_PARTS` configured,
initialization completes, `parts` is reachable, `manufacturing_orders` is
not, and a warning was logged for the eight unconfigured tables. -/
theorem allowList_init_spec_witness :
    initAllowList envPartsOnly = .ok (statePartsOnlyInit, warnedPartsOnly) ∧
    isTableAllowed statePartsOnlyInit "parts" = true ∧
    isTableAllowed statePartsOnlyInit "manufacturing_orders" = false ∧
    warnedPartsOnly ≠ [] := by
  have hok : initAllowList envPartsOnly = .ok (statePartsOnlyInit, warnedPartsOnly) := by rfl
  have h := (allowList_init_spec envPartsOnly).2 statePartsOnlyInit warnedPartsOnly hok
  refine ⟨hok, ?_, ?_, ?_⟩
  · rw [h.1 "parts"]
    decide
  · rw [h.1 "manufacturing_orders"]
    decide
  · exact h.2.2.mpr ⟨⟨"manufacturing_orders", "TABLE_ID_MANUFACTURING_ORDERS",
      "Manufacturing Orders (MO) for tracking production lifecycle"⟩, by decide, by decide⟩

end MCPBaserow
